import Mathlib

/-!
A shallow embedding of the three Move modules of the Clob402 repository
(`payment_with_auth`, `strategy_vault`, `order_book`, all in
`move/sources/payment_with_auth.move`), together with theorems settling the
specification claims about them.

Modelling conventions:
* Move `address` is modelled as `Nat`, `u64` as `Nat` with every arithmetic
  operation guarded by an explicit `2^64 - 1` bound check (Move aborts on
  overflow/underflow/division-by-zero; here such an abort is an `MErr`).
* `Table<K, V>` is modelled as `K → Option V`; `table::borrow` on a missing
  key aborts (`MErr.missingEntry`), `table::add` on a present key aborts
  (`MErr.entryExists`), mirroring Move table semantics.
* Global storage (`exists<R>(addr)` / `move_to` / `borrow_global_mut`) is an
  explicit `GState` record holding per-address optional resources, the coin
  ledger, the current time (`timestamp::now_seconds`) and the emitted events.
* Move transactions are atomic: an `assert!` failure or any other abort rolls
  the whole transaction back.  Each entry point therefore has the type
  `... → GState → Except MErr GState`: on `.error` no state change persists
  and the caller keeps the pre-state.
* Ed25519 is external to the repository, so `signature_verify_strict` is a
  parameter `verify : signature → public key → message → Bool` of the
  payment entry point; the message bytes themselves are computed exactly as
  `construct_authorization_message` does in the source.
-/

/-- Move `address`, abstracted. -/
abbrev Addr := Nat

/-- Largest value of a Move `u64`. -/
def U64MAX : Nat := 18446744073709551615

/-- Abort causes: a module `assert!` with its error code, or a VM-level abort
(checked arithmetic, table misuse, coin balance). -/
inductive MErr where
  | abortCode (code : Nat)
  | overflow
  | divByZero
  | missingEntry
  | entryExists
  | insufficientCoinBalance
deriving DecidableEq, Repr

/-- Move `assert!(c, code)`. -/
def requireMv (c : Prop) [Decidable c] (code : Nat) : Except MErr Unit :=
  if c then .ok () else .error (.abortCode code)

/-- Update one key of a modelled `Table`. -/
def upd {κ : Type} {α : Type} [DecidableEq κ] (t : κ → Option α) (k : κ) (v : α) :
    κ → Option α :=
  fun x => if x = k then some v else t x

/-- `NonceStore` resource of `payment_with_auth`: `used_nonces : Table<u64, bool>`. -/
structure NonceStore where
  used_nonces : Nat → Option Bool

/-- `PaymentExecutedEvent` of `payment_with_auth`. -/
structure PaymentExecutedEvent where
  sender : Addr
  recipient : Addr
  amount : Nat
  nonce : Nat
  timestamp : Nat
deriving DecidableEq, Repr

/-- `Vault` resource of `strategy_vault`. -/
structure Vault where
  reference_trader : Addr
  total_deposits : Nat
  total_shares : Nat
  user_shares : Addr → Option Nat
  user_available_balance : Addr → Option Nat
  user_locked_balance : Addr → Option Nat
  is_active : Bool

/-- `DepositEvent` of `strategy_vault`. -/
structure DepositEvent where
  user : Addr
  amount : Nat
  shares_minted : Nat
  timestamp : Nat
deriving DecidableEq, Repr

/-- `WithdrawEvent` of `strategy_vault`. -/
structure WithdrawEvent where
  user : Addr
  amount : Nat
  shares_burned : Nat
  timestamp : Nat
deriving DecidableEq, Repr

/-- `VaultTradeEvent` of `strategy_vault`. -/
structure VaultTradeEvent where
  reference_trader : Addr
  trade_amount : Nat
  timestamp : Nat
deriving DecidableEq, Repr

/-- `Order` struct of `order_book`. -/
structure Order where
  order_id : Nat
  owner : Addr
  price : Nat
  quantity : Nat
  filled_quantity : Nat
  side : Nat
  status : Nat
  timestamp : Nat
deriving DecidableEq, Repr

/-- `OrderBook` resource of `order_book`. -/
structure OrderBook where
  next_order_id : Nat
  orders : Nat → Option Order
  user_orders : Addr → Option (List Nat)
  vault_address : Addr

/-- `OrderPlacedEvent` of `order_book`. -/
structure OrderPlacedEvent where
  order_id : Nat
  owner : Addr
  price : Nat
  quantity : Nat
  side : Nat
  timestamp : Nat
deriving DecidableEq, Repr

/-- `OrderFilledEvent` of `order_book`. -/
structure OrderFilledEvent where
  order_id : Nat
  owner : Addr
  filled_quantity : Nat
  remaining_quantity : Nat
  timestamp : Nat
deriving DecidableEq, Repr

/-- `OrderCancelledEvent` of `order_book`. -/
structure OrderCancelledEvent where
  order_id : Nat
  owner : Addr
  timestamp : Nat
deriving DecidableEq, Repr

/-- All events the three modules can emit, in emission order. -/
inductive Event where
  | paymentExecuted (e : PaymentExecutedEvent)
  | deposited (e : DepositEvent)
  | withdrawn (e : WithdrawEvent)
  | vaultTrade (e : VaultTradeEvent)
  | orderPlaced (e : OrderPlacedEvent)
  | orderFilled (e : OrderFilledEvent)
  | orderCancelled (e : OrderCancelledEvent)
deriving DecidableEq, Repr

/-- Global Move state: per-address resources, the coin ledger for the single
`CoinType` in play, the clock and the event log. -/
structure GState where
  now : Nat
  coins : Addr → Nat
  nonceStores : Addr → Option NonceStore
  vaults : Addr → Option Vault
  books : Addr → Option OrderBook
  events : List Event

/-- `aptos_framework::coin::transfer<CoinType>(from, to, amount)`: aborts when
the source balance is insufficient or the destination balance would overflow. -/
def coinTransfer (src dst : Addr) (amount : Nat) (s : GState) : Except MErr GState :=
  if s.coins src < amount then .error .insufficientCoinBalance
  else
    let afterW : Addr → Nat := fun a => if a = src then s.coins a - amount else s.coins a
    if afterW dst + amount > U64MAX then .error .overflow
    else .ok { s with coins := fun a => if a = dst then afterW a + amount else afterW a }

namespace payment_with_auth

def E_NONCE_ALREADY_USED : Nat := 1

def E_AUTHORIZATION_EXPIRED : Nat := 2

def E_INVALID_SIGNATURE : Nat := 3

def E_NONCE_STORE_NOT_INITIALIZED : Nat := 4

/-- `initialize_nonce_store`: creates an empty store unless one exists. -/
def initialize_nonce_store (account : Addr) (s : GState) : GState :=
  match s.nonceStores account with
  | some _ => s
  | none => { s with nonceStores := upd s.nonceStores account ⟨fun _ => none⟩ }

/-- `u64_to_string` digit loop (digits emitted most significant first, as the
source builds them least-significant-first and reverses).  The fuel argument
only serves Lean's structural recursion; 32 covers every `u64`. -/
def u64_digits : Nat → Nat → List Nat
  | 0, _ => []
  | fuel + 1, v => if v = 0 then [] else u64_digits fuel (v / 10) ++ [v % 10 + 48]

/-- `u64_to_string`: decimal ASCII rendering of a `u64`. -/
def u64_to_string (value : Nat) : List Nat :=
  if value = 0 then [48] else u64_digits 32 value

/-- The `b"0123456789abcdef"` table of `to_hex_string`. -/
def hex_chars : List Nat := [48, 49, 50, 51, 52, 53, 54, 55, 56, 57, 97, 98, 99, 100, 101, 102]

/-- `to_hex_string`: two lowercase hex characters per byte. -/
def to_hex_string (bytes : List Nat) : List Nat :=
  bytes.foldr (fun byte acc => hex_chars.getD (byte / 16) 0 :: hex_chars.getD (byte % 16) 0 :: acc) []

/-- `bcs::to_bytes` of an address: its 32 bytes, most significant first. -/
def addr_bcs_bytes (a : Addr) : List Nat :=
  (List.range 32).map (fun i => a / 256 ^ (31 - i) % 256)

/-- Byte list of a Lean string literal (all literals used are ASCII). -/
def bytesOf (s : String) : List Nat := s.toList.map Char.toNat

/-- `address_to_string`: `0x`-prefixed lowercase hex of the BCS bytes. -/
def address_to_string (a : Addr) : List Nat :=
  bytesOf "0x" ++ to_hex_string (addr_bcs_bytes a)

/-- `construct_authorization_message`: the exact wallet-envelope framing
`"APTOS\nmessage: " ++ sender ++ ":" ++ recipient ++ ":" ++ amount ++ ":" ++
nonce ++ ":" ++ expiry ++ "\nnonce: " ++ nonce`. -/
def construct_authorization_message (sender recipient : Addr)
    (amount nonce expiry : Nat) : List Nat :=
  let inner := address_to_string sender ++ bytesOf ":" ++ address_to_string recipient
    ++ bytesOf ":" ++ u64_to_string amount ++ bytesOf ":" ++ u64_to_string nonce
    ++ bytesOf ":" ++ u64_to_string expiry
  bytesOf "APTOS\nmessage: " ++ inner ++ bytesOf "\nnonce: " ++ u64_to_string nonce

/-- `transfer_with_authorization<CoinType>`.  `verify sig pk msg` stands for
`ed25519::signature_verify_strict`.  Note the source's last step transfers the
coins out of the *facilitator's* balance (`coin::transfer(facilitator,
recipient, amount)`), not the sender's. -/
def transfer_with_authorization
    (verify : List Nat → List Nat → List Nat → Bool)
    (facilitator sender recipient : Addr)
    (amount nonce expiry : Nat)
    (signature public_key : List Nat)
    (s : GState) : Except MErr GState :=
  let current_time := s.now
  if current_time > expiry then .error (.abortCode E_AUTHORIZATION_EXPIRED)
  else
    match s.nonceStores sender with
    | none => .error (.abortCode E_NONCE_STORE_NOT_INITIALIZED)
    | some nonce_store =>
      if (nonce_store.used_nonces nonce).isSome then .error (.abortCode E_NONCE_ALREADY_USED)
      else
        let message := construct_authorization_message sender recipient amount nonce expiry
        if verify signature public_key message = false then .error (.abortCode E_INVALID_SIGNATURE)
        else
          let ns' : NonceStore := ⟨fun n => if n = nonce then some true else nonce_store.used_nonces n⟩
          let s1 := { s with nonceStores := upd s.nonceStores sender ns' }
          match coinTransfer facilitator recipient amount s1 with
          | .error e => .error e
          | .ok s2 => .ok { s2 with events := s2.events ++
              [Event.paymentExecuted ⟨sender, recipient, amount, nonce, current_time⟩] }

/-- `is_nonce_used` view. -/
def is_nonce_used (user : Addr) (nonce : Nat) (s : GState) : Bool :=
  match s.nonceStores user with
  | none => false
  | some nonce_store => (nonce_store.used_nonces nonce).isSome

end payment_with_auth

namespace strategy_vault

def E_VAULT_NOT_INITIALIZED : Nat := 1

def E_INSUFFICIENT_BALANCE : Nat := 2

def E_INVALID_AMOUNT : Nat := 3

def E_INSUFFICIENT_SHARES : Nat := 4

def E_UNAUTHORIZED : Nat := 5

def E_INSUFFICIENT_AVAILABLE_BALANCE : Nat := 6

def E_INSUFFICIENT_LOCKED_BALANCE : Nat := 7

/-- `initialize_vault`: creates an empty active vault unless one exists. -/
def initialize_vault (admin reference_trader : Addr) (s : GState) : GState :=
  match s.vaults admin with
  | some _ => s
  | none =>
    let fresh : Vault :=
      { reference_trader := reference_trader
        total_deposits := 0
        total_shares := 0
        user_shares := fun _ => none
        user_available_balance := fun _ => none
        user_locked_balance := fun _ => none
        is_active := true }
    { s with vaults := upd s.vaults admin fresh }

/-- The share-minting formula shared by `deposit` and `credit_deposit`:
`amount` on the first deposit, else `amount * total_shares / total_deposits`
truncated. -/
def shares_to_mint (vault : Vault) (amount : Nat) : Nat :=
  if vault.total_shares = 0 then amount
  else amount * vault.total_shares / vault.total_deposits

/-- The accounting shared by `deposit` and `credit_deposit`: mint shares,
bump the totals, and credit the user's share and available-balance entries
(entries are created at 0 when missing, as the source's `table::add` guards
do).  Aborts on `u64` overflow or on the `S > 0 ∧ D = 0` division by zero. -/
def depositAccounting (vault : Vault) (user_addr : Addr) (amount : Nat) :
    Except MErr Vault :=
  if vault.total_shares ≠ 0 ∧ amount * vault.total_shares > U64MAX then .error .overflow
  else if vault.total_shares ≠ 0 ∧ vault.total_deposits = 0 then .error .divByZero
  else
    let minted := shares_to_mint vault amount
    if vault.total_deposits + amount > U64MAX then .error .overflow
    else if vault.total_shares + minted > U64MAX then .error .overflow
    else
      let ush := (vault.user_shares user_addr).getD 0
      let uav := (vault.user_available_balance user_addr).getD 0
      let ulk := (vault.user_locked_balance user_addr).getD 0
      if ush + minted > U64MAX then .error .overflow
      else if uav + amount > U64MAX then .error .overflow
      else .ok { vault with
        total_deposits := vault.total_deposits + amount
        total_shares := vault.total_shares + minted
        user_shares := upd vault.user_shares user_addr (ush + minted)
        user_available_balance := upd vault.user_available_balance user_addr (uav + amount)
        user_locked_balance := upd vault.user_locked_balance user_addr ulk }

/-- The vault value produced by a successful `depositAccounting`, written out
as a function of the pre-state vault. -/
def depositResultVault (vault : Vault) (user_addr : Addr) (amount : Nat) : Vault :=
  { vault with
    total_deposits := vault.total_deposits + amount
    total_shares := vault.total_shares + shares_to_mint vault amount
    user_shares := upd vault.user_shares user_addr
      ((vault.user_shares user_addr).getD 0 + shares_to_mint vault amount)
    user_available_balance := upd vault.user_available_balance user_addr
      ((vault.user_available_balance user_addr).getD 0 + amount)
    user_locked_balance := upd vault.user_locked_balance user_addr
      ((vault.user_locked_balance user_addr).getD 0) }

/-- `deposit<CoinType>`: vault accounting followed by the coin transfer of
`amount` from the user to the vault address. -/
def deposit (user vault_addr : Addr) (amount : Nat) (s : GState) : Except MErr GState :=
  match s.vaults vault_addr with
  | none => .error (.abortCode E_VAULT_NOT_INITIALIZED)
  | some vault =>
    if amount = 0 then .error (.abortCode E_INVALID_AMOUNT)
    else if vault.is_active = false then .error (.abortCode E_UNAUTHORIZED)
    else
      match depositAccounting vault user amount with
      | .error e => .error e
      | .ok vault' =>
        let s1 := { s with vaults := upd s.vaults vault_addr vault' }
        match coinTransfer user vault_addr amount s1 with
        | .error e => .error e
        | .ok s2 => .ok { s2 with events := s2.events ++
            [Event.deposited ⟨user, amount, shares_to_mint vault amount, s.now⟩] }

/-- `credit_deposit<CoinType>`: identical accounting to `deposit` but no coin
movement (the coins already arrived via `transfer_with_authorization`).  The
`facilitator` signer is never inspected. -/
def credit_deposit (facilitator : Addr) (vault_addr user_addr : Addr) (amount : Nat)
    (s : GState) : Except MErr GState :=
  match s.vaults vault_addr with
  | none => .error (.abortCode E_VAULT_NOT_INITIALIZED)
  | some vault =>
    if amount = 0 then .error (.abortCode E_INVALID_AMOUNT)
    else if vault.is_active = false then .error (.abortCode E_UNAUTHORIZED)
    else
      match depositAccounting vault user_addr amount with
      | .error e => .error e
      | .ok vault' =>
        .ok { s with vaults := upd s.vaults vault_addr vault'
                     events := s.events ++
            [Event.deposited ⟨user_addr, amount, shares_to_mint vault amount, s.now⟩] }

/-- `withdraw<CoinType>`: burns shares and reduces the totals by the computed
amount.  As in the source, the user's available/locked balances are untouched
and no coins actually leave the vault (the signer-capability gap noted in the
source comments). -/
def withdraw (user vault_addr : Addr) (shares : Nat) (s : GState) : Except MErr GState :=
  match s.vaults vault_addr with
  | none => .error (.abortCode E_VAULT_NOT_INITIALIZED)
  | some vault =>
    if shares = 0 then .error (.abortCode E_INVALID_AMOUNT)
    else
      match vault.user_shares user with
      | none => .error (.abortCode E_INSUFFICIENT_SHARES)
      | some ush =>
        if ush < shares then .error (.abortCode E_INSUFFICIENT_SHARES)
        else if shares * vault.total_deposits > U64MAX then .error .overflow
        else if vault.total_shares = 0 then .error .divByZero
        else
          let amount := shares * vault.total_deposits / vault.total_shares
          if vault.total_deposits < amount then .error .overflow
          else if vault.total_shares < shares then .error .overflow
          else
            .ok { s with
              vaults := upd s.vaults vault_addr { vault with
                total_deposits := vault.total_deposits - amount
                total_shares := vault.total_shares - shares
                user_shares := upd vault.user_shares user (ush - shares) }
              events := s.events ++ [Event.withdrawn ⟨user, amount, shares, s.now⟩] }

/-- `record_vault_trade`: emits a `VaultTradeEvent`; no state change. -/
def record_vault_trade (facilitator vault_addr : Addr) (trade_amount : Nat)
    (s : GState) : Except MErr GState :=
  match s.vaults vault_addr with
  | none => .error (.abortCode E_VAULT_NOT_INITIALIZED)
  | some vault =>
    .ok { s with events := s.events ++
      [Event.vaultTrade ⟨vault.reference_trader, trade_amount, s.now⟩] }

/-- `lock_balance`: moves `amount` of `user`'s balance from available to
locked; initializes missing balance entries at 0 first, as the source does. -/
def lock_balance (vault_addr user : Addr) (amount : Nat) (s : GState) : Except MErr GState :=
  match s.vaults vault_addr with
  | none => .error (.abortCode E_VAULT_NOT_INITIALIZED)
  | some vault =>
    let uav := (vault.user_available_balance user).getD 0
    let ulk := (vault.user_locked_balance user).getD 0
    if uav < amount then .error (.abortCode E_INSUFFICIENT_AVAILABLE_BALANCE)
    else if ulk + amount > U64MAX then .error .overflow
    else .ok { s with vaults := upd s.vaults vault_addr { vault with
      user_available_balance := upd vault.user_available_balance user (uav - amount)
      user_locked_balance := upd vault.user_locked_balance user (ulk + amount) } }

/-- The vault value after a successful `lock_balance`. -/
def lockResultVault (vault : Vault) (user : Addr) (amount : Nat) : Vault :=
  { vault with
    user_available_balance := upd vault.user_available_balance user
      ((vault.user_available_balance user).getD 0 - amount)
    user_locked_balance := upd vault.user_locked_balance user
      ((vault.user_locked_balance user).getD 0 + amount) }

/-- The vault value after a successful `unlock_balance` (both entries were
present, or the call would have aborted). -/
def unlockResultVault (vault : Vault) (user : Addr) (amount : Nat) : Vault :=
  { vault with
    user_available_balance := upd vault.user_available_balance user
      ((vault.user_available_balance user).getD 0 + amount)
    user_locked_balance := upd vault.user_locked_balance user
      ((vault.user_locked_balance user).getD 0 - amount) }

/-- `unlock_balance`: moves `amount` back from locked to available.  Unlike
`lock_balance` it does not initialize missing entries: `table::borrow_mut` on
a user without balance entries aborts. -/
def unlock_balance (vault_addr user : Addr) (amount : Nat) (s : GState) : Except MErr GState :=
  match s.vaults vault_addr with
  | none => .error (.abortCode E_VAULT_NOT_INITIALIZED)
  | some vault =>
    match vault.user_available_balance user with
    | none => .error .missingEntry
    | some uav =>
      match vault.user_locked_balance user with
      | none => .error .missingEntry
      | some ulk =>
        if ulk < amount then .error (.abortCode E_INSUFFICIENT_LOCKED_BALANCE)
        else if uav + amount > U64MAX then .error .overflow
        else .ok { s with vaults := upd s.vaults vault_addr { vault with
          user_available_balance := upd vault.user_available_balance user (uav + amount)
          user_locked_balance := upd vault.user_locked_balance user (ulk - amount) } }

/-- `settle_order`: moves `amount` from `from_`'s locked balance to `to_`'s
available balance.  The source initializes `to_`'s entries first and only then
borrows `from_`'s locked entry (so a missing `from_` entry aborts, unless
`from_ = to_` in which case the initialization just created it). -/
def settle_order (vault_addr from_ to_ : Addr) (amount : Nat) (s : GState) : Except MErr GState :=
  match s.vaults vault_addr with
  | none => .error (.abortCode E_VAULT_NOT_INITIALIZED)
  | some vault =>
    let toAv := (vault.user_available_balance to_).getD 0
    let toLk := (vault.user_locked_balance to_).getD 0
    let uab1 := upd vault.user_available_balance to_ toAv
    let ulb1 := upd vault.user_locked_balance to_ toLk
    match ulb1 from_ with
    | none => .error .missingEntry
    | some from_locked =>
      if from_locked < amount then .error (.abortCode E_INSUFFICIENT_LOCKED_BALANCE)
      else if toAv + amount > U64MAX then .error .overflow
      else .ok { s with vaults := upd s.vaults vault_addr { vault with
        user_locked_balance := upd ulb1 from_ (from_locked - amount)
        user_available_balance := upd uab1 to_ (toAv + amount) } }

/-- `calculate_share_value` view. -/
def calculate_share_value (vault : Vault) (shares : Nat) : Nat :=
  if vault.total_shares = 0 then 0
  else shares * vault.total_deposits / vault.total_shares

end strategy_vault

/-- `get_user_shares` view, as the table-lookup-or-0 on a given vault value. -/
def Vault.sharesOf (vault : Vault) (user : Addr) : Nat :=
  (vault.user_shares user).getD 0

/-- `get_user_available_balance` view on a vault value. -/
def Vault.availOf (vault : Vault) (user : Addr) : Nat :=
  (vault.user_available_balance user).getD 0

/-- `get_user_locked_balance` view on a vault value. -/
def Vault.lockedOf (vault : Vault) (user : Addr) : Nat :=
  (vault.user_locked_balance user).getD 0

/-- `get_user_total_balance` view on a vault value. -/
def Vault.totalOf (vault : Vault) (user : Addr) : Nat :=
  vault.availOf user + vault.lockedOf user

namespace order_book

def E_ORDER_BOOK_NOT_INITIALIZED : Nat := 1

def E_INVALID_ORDER_ID : Nat := 2

def E_INVALID_PRICE : Nat := 3

def E_INVALID_QUANTITY : Nat := 4

def E_ORDER_NOT_FOUND : Nat := 5

def E_UNAUTHORIZED : Nat := 6

def ORDER_SIDE_BID : Nat := 0

def ORDER_SIDE_ASK : Nat := 1

def ORDER_STATUS_OPEN : Nat := 0

def ORDER_STATUS_FILLED : Nat := 1

def ORDER_STATUS_CANCELLED : Nat := 2

def ORDER_STATUS_PARTIALLY_FILLED : Nat := 3

/-- `initialize_order_book`: creates an empty book unless one exists. -/
def initialize_order_book (admin vault_address : Addr) (s : GState) : GState :=
  match s.books admin with
  | some _ => s
  | none =>
    let fresh : OrderBook :=
      { next_order_id := 1
        orders := fun _ => none
        user_orders := fun _ => none
        vault_address := vault_address }
    { s with books := upd s.books admin fresh }

/-- The body shared by `place_order` and `place_order_for_user` once the
owner address is fixed: size the lock, lock the vault balance, then create
the order, index it and emit `OrderPlacedEvent`. -/
def placeOrderOwned (owner order_book_addr : Addr) (price quantity side : Nat)
    (s : GState) : Except MErr GState :=
  match s.books order_book_addr with
  | none => .error (.abortCode E_ORDER_BOOK_NOT_INITIALIZED)
  | some book =>
    if price = 0 then .error (.abortCode E_INVALID_PRICE)
    else if quantity = 0 then .error (.abortCode E_INVALID_QUANTITY)
    else if side = ORDER_SIDE_BID ∧ price * quantity > U64MAX then .error .overflow
    else
      let lock_amount := if side = ORDER_SIDE_BID then price * quantity else quantity
      match strategy_vault.lock_balance book.vault_address owner lock_amount s with
      | .error e => .error e
      | .ok s1 =>
        let order_id := book.next_order_id
        if order_id + 1 > U64MAX then .error .overflow
        else
          let order : Order :=
            { order_id := order_id
              owner := owner
              price := price
              quantity := quantity
              filled_quantity := 0
              side := side
              status := ORDER_STATUS_OPEN
              timestamp := s.now }
          match book.orders order_id with
          | some _ => .error .entryExists
          | none =>
            let user_order_list := (book.user_orders owner).getD []
            let book' : OrderBook :=
              { book with
                next_order_id := order_id + 1
                orders := upd book.orders order_id order
                user_orders := upd book.user_orders owner (user_order_list ++ [order_id]) }
            .ok { s1 with
              books := upd s1.books order_book_addr book'
              events := s1.events ++
                [Event.orderPlaced ⟨order_id, owner, price, quantity, side, s.now⟩] }

/-- `place_order`: the signing user is the owner. -/
def place_order (user order_book_addr : Addr) (price quantity side : Nat)
    (s : GState) : Except MErr GState :=
  placeOrderOwned user order_book_addr price quantity side s

/-- `place_order_for_user`: the facilitator signs, the given user owns the
order and has their funds locked; the facilitator argument is never
inspected. -/
def place_order_for_user (facilitator : Addr) (order_book_addr user_addr : Addr)
    (price quantity side : Nat) (s : GState) : Except MErr GState :=
  placeOrderOwned user_addr order_book_addr price quantity side s

/-- `cancel_order`: only the owner may cancel an Open/PartiallyFilled order;
unlocks the still-locked remainder and marks the order Cancelled. -/
def cancel_order (user order_book_addr : Addr) (order_id : Nat)
    (s : GState) : Except MErr GState :=
  match s.books order_book_addr with
  | none => .error (.abortCode E_ORDER_BOOK_NOT_INITIALIZED)
  | some book =>
    match book.orders order_id with
    | none => .error (.abortCode E_ORDER_NOT_FOUND)
    | some order =>
      if order.owner ≠ user then .error (.abortCode E_UNAUTHORIZED)
      else if ¬ (order.status = ORDER_STATUS_OPEN ∨ order.status = ORDER_STATUS_PARTIALLY_FILLED)
        then .error (.abortCode E_INVALID_ORDER_ID)
      else if order.quantity < order.filled_quantity then .error .overflow
      else
        let remaining_quantity := order.quantity - order.filled_quantity
        if order.side = ORDER_SIDE_BID ∧ order.price * remaining_quantity > U64MAX
          then .error .overflow
        else
          let unlock_amount :=
            if order.side = ORDER_SIDE_BID then order.price * remaining_quantity
            else remaining_quantity
          match strategy_vault.unlock_balance book.vault_address user unlock_amount s with
          | .error e => .error e
          | .ok s1 =>
            let cancelled := { order with status := ORDER_STATUS_CANCELLED }
            let book' : OrderBook :=
              { book with orders := upd book.orders order_id cancelled }
            .ok { s1 with
              books := upd s1.books order_book_addr book'
              events := s1.events ++ [Event.orderCancelled ⟨order_id, user, s.now⟩] }

/-- The two `settle_order` legs of `fill_order`: for a Bid maker, `fill_value`
moves maker → taker and `fill_quantity` moves taker → maker; for any other
side the quantities swap roles. -/
def settleBothLegs (vault_addr maker taker : Addr) (side fill_value fill_quantity : Nat)
    (s : GState) : Except MErr GState :=
  if side = ORDER_SIDE_BID then
    match strategy_vault.settle_order vault_addr maker taker fill_value s with
    | .error e => .error e
    | .ok sa => strategy_vault.settle_order vault_addr taker maker fill_quantity sa
  else
    match strategy_vault.settle_order vault_addr maker taker fill_quantity s with
    | .error e => .error e
    | .ok sa => strategy_vault.settle_order vault_addr taker maker fill_value sa

/-- `fill_order`: settles maker/taker locked balances through the vault in
both directions, bumps `filled_quantity` and updates the status.  The
facilitator argument is never inspected. -/
def fill_order (facilitator : Addr) (order_book_addr : Addr) (maker_order_id : Nat)
    (taker_address : Addr) (fill_quantity : Nat) (s : GState) : Except MErr GState :=
  match s.books order_book_addr with
  | none => .error (.abortCode E_ORDER_BOOK_NOT_INITIALIZED)
  | some book =>
    match book.orders maker_order_id with
    | none => .error (.abortCode E_ORDER_NOT_FOUND)
    | some order =>
      if ¬ (order.status = ORDER_STATUS_OPEN ∨ order.status = ORDER_STATUS_PARTIALLY_FILLED)
        then .error (.abortCode E_INVALID_ORDER_ID)
      else if order.price * fill_quantity > U64MAX then .error .overflow
      else
        let fill_value := order.price * fill_quantity
        match settleBothLegs book.vault_address order.owner taker_address order.side
          fill_value fill_quantity s with
        | .error e => .error e
        | .ok s1 =>
          if order.filled_quantity + fill_quantity > U64MAX then .error .overflow
          else if order.quantity < order.filled_quantity + fill_quantity then .error .overflow
          else
            let fq := order.filled_quantity + fill_quantity
            let remaining := order.quantity - fq
            let status' :=
              if remaining = 0 then ORDER_STATUS_FILLED else ORDER_STATUS_PARTIALLY_FILLED
            let filledOrder := { order with filled_quantity := fq, status := status' }
            let book' : OrderBook :=
              { book with orders := upd book.orders maker_order_id filledOrder }
            .ok { s1 with
              books := upd s1.books order_book_addr book'
              events := s1.events ++
                [Event.orderFilled ⟨maker_order_id, order.owner, fill_quantity, remaining, s.now⟩] }

end order_book

/-- The empty global state: no resources, empty coin ledger, time 0. -/
def emptyState : GState :=
  { now := 0
    coins := fun _ => 0
    nonceStores := fun _ => none
    vaults := fun _ => none
    books := fun _ => none
    events := [] }

def c4Start : GState := { emptyState with coins := fun a => if a = 1 then 1000 else 0 }

/-- A nonce store in which no nonce is used. -/
def freshStore : NonceStore := ⟨fun _ => none⟩

/-- A nonce store in which exactly nonce 7 is used. -/
def store7 : NonceStore := ⟨fun n => if n = 7 then some true else none⟩

/-- State for C1: facilitator 0 holds 100 coins, sender 1 holds 50 coins and
has an initialized, empty nonce store; recipient 2 holds nothing. -/
def c1State : GState :=
  { emptyState with
    coins := fun a => if a = 0 then 100 else if a = 1 then 50 else 0
    nonceStores := fun a => if a = 1 then some freshStore else none }

/-- State for the C2 witness with a used nonce. -/
def c2UsedState : GState :=
  { emptyState with nonceStores := fun a => if a = 1 then some store7 else none }

/-- State for the C2 witness with an initialized, fresh nonce store. -/
def c2FreshState : GState :=
  { emptyState with nonceStores := fun a => if a = 1 then some freshStore else none }

/-- State for the C2 expiry witness: the clock is at 5. -/
def c2LateState : GState := { emptyState with now := 5 }

/-- State for C3: the sender's authorization is fully valid, but the
facilitator (address 0) holds only 10 coins, fewer than the 30 being
transferred, so the downstream `coin::transfer` aborts. -/
def c3State : GState :=
  { emptyState with
    coins := fun a => if a = 0 then 10 else if a = 1 then 50 else 0
    nonceStores := fun a => if a = 1 then some freshStore else none }

/-- State for the C3 witness: same as the C3 state but the facilitator can
cover the transfer. -/
def c3OkState : GState :=
  { emptyState with
    coins := fun a => if a = 0 then 100 else if a = 1 then 50 else 0
    nonceStores := fun a => if a = 1 then some freshStore else none }

/-- The post-state of the successful C3 witness run. -/
def c3OkPost : GState :=
  (payment_with_auth.transfer_with_authorization (fun _ _ _ => true) 0 1 2 30 7 10 [] []
    c3OkState).toOption.getD emptyState

/-- State for the C5 counterexample: nonce 7 of sender 1 is already used,
the clock is at 10, and the replayed authorization carries expiry 3. -/
def c5State : GState :=
  { emptyState with
    now := 10
    coins := fun a => if a = 0 then 100 else if a = 1 then 50 else 0
    nonceStores := fun a => if a = 1 then some store7 else none }

/-- One call to any mutating entry point of the three modules. -/
inductive Op where
  | initializeNonceStore (account : Addr)
  | transferWithAuthorization (verify : List Nat → List Nat → List Nat → Bool)
      (facilitator sender recipient : Addr) (amount nonce expiry : Nat)
      (signature public_key : List Nat)
  | initializeVault (admin reference_trader : Addr)
  | depositOp (user vault_addr : Addr) (amount : Nat)
  | creditDepositOp (facilitator vault_addr user_addr : Addr) (amount : Nat)
  | withdrawOp (user vault_addr : Addr) (shares : Nat)
  | recordVaultTradeOp (facilitator vault_addr : Addr) (trade_amount : Nat)
  | lockBalanceOp (vault_addr user : Addr) (amount : Nat)
  | unlockBalanceOp (vault_addr user : Addr) (amount : Nat)
  | settleOrderOp (vault_addr from_ to_ : Addr) (amount : Nat)
  | initializeOrderBook (admin vault_address : Addr)
  | placeOrderOp (user order_book_addr : Addr) (price quantity side : Nat)
  | placeOrderForUserOp (facilitator order_book_addr user_addr : Addr) (price quantity side : Nat)
  | cancelOrderOp (user order_book_addr : Addr) (order_id : Nat)
  | fillOrderOp (facilitator order_book_addr : Addr) (maker_order_id : Nat)
      (taker_address : Addr) (fill_quantity : Nat)

/-- Apply one entry-point call to the global state. -/
def applyOp : Op → GState → Except MErr GState
  | .initializeNonceStore a, s => .ok (payment_with_auth.initialize_nonce_store a s)
  | .transferWithAuthorization v f sn r am n e sg pk, s =>
      payment_with_auth.transfer_with_authorization v f sn r am n e sg pk s
  | .initializeVault ad rt, s => .ok (strategy_vault.initialize_vault ad rt s)
  | .depositOp u va a, s => strategy_vault.deposit u va a s
  | .creditDepositOp f va u a, s => strategy_vault.credit_deposit f va u a s
  | .withdrawOp u va sh, s => strategy_vault.withdraw u va sh s
  | .recordVaultTradeOp f va t, s => strategy_vault.record_vault_trade f va t s
  | .lockBalanceOp va u a, s => strategy_vault.lock_balance va u a s
  | .unlockBalanceOp va u a, s => strategy_vault.unlock_balance va u a s
  | .settleOrderOp va fr dst a, s => strategy_vault.settle_order va fr dst a s
  | .initializeOrderBook ad va, s => .ok (order_book.initialize_order_book ad va s)
  | .placeOrderOp u ba p q sd, s => order_book.place_order u ba p q sd s
  | .placeOrderForUserOp f ba u p q sd, s => order_book.place_order_for_user f ba u p q sd s
  | .cancelOrderOp u ba oid, s => order_book.cancel_order u ba oid s
  | .fillOrderOp f ba oid tk fq, s => order_book.fill_order f ba oid tk fq s

/-- A populated vault for the C6 witness: 10 deposited, 5 shares total, user 1
holding 2 shares, 4 available, nothing locked. -/
def c6Vault : Vault :=
  { reference_trader := 9
    total_deposits := 10
    total_shares := 5
    user_shares := fun a => if a = 1 then some 2 else none
    user_available_balance := fun a => if a = 1 then some 4 else none
    user_locked_balance := fun a => if a = 1 then some 0 else none
    is_active := true }

/-- State for the C6 witness: the populated vault lives at address 0 and the
depositing user 1 holds 100 coins. -/
def c6State : GState :=
  { emptyState with
    coins := fun a => if a = 1 then 100 else 0
    vaults := fun a => if a = 0 then some c6Vault else none }

/-- A never-used vault for the C6 first-deposit witness. -/
def c6FreshVault : Vault :=
  { reference_trader := 9
    total_deposits := 0
    total_shares := 0
    user_shares := fun _ => none
    user_available_balance := fun _ => none
    user_locked_balance := fun _ => none
    is_active := true }

/-- State for the C6 first-deposit witness. -/
def c6FreshState : GState :=
  { emptyState with vaults := fun a => if a = 0 then some c6FreshVault else none }

/-- Post-state of the C6 witness deposit of 4 by user 1. -/
def c6DepositPost : GState :=
  (strategy_vault.deposit 1 0 4 c6State).toOption.getD emptyState

/-- Post-state of the C6 witness credit_deposit of 4 for user 1. -/
def c6CreditPost : GState :=
  (strategy_vault.credit_deposit 9 0 1 4 c6State).toOption.getD emptyState

/-- A vault for the C9 witness: user 1 has 10 available and 2 locked. -/
def c9Vault : Vault :=
  { reference_trader := 9
    total_deposits := 12
    total_shares := 12
    user_shares := fun a => if a = 1 then some 12 else none
    user_available_balance := fun a => if a = 1 then some 10 else none
    user_locked_balance := fun a => if a = 1 then some 2 else none
    is_active := true }

/-- State for the C9 witness: the vault lives at address 0. -/
def c9State : GState :=
  { emptyState with vaults := fun a => if a = 0 then some c9Vault else none }

/-- Post-state of locking 3 for user 1 in the C9 witness. -/
def c9LockPost : GState :=
  (strategy_vault.lock_balance 0 1 3 c9State).toOption.getD emptyState

/-- The C9 witness vault after the lock. -/
def c9LockVault : Vault := (c9LockPost.vaults 0).getD c9Vault

/-- Post-state of unlocking 3 for user 1 after the C9 witness lock. -/
def c9UnlockPost : GState :=
  (strategy_vault.unlock_balance 0 1 3 c9LockPost).toOption.getD emptyState

/-- The C9 witness vault after the lock and the unlock. -/
def c9UnlockVault : Vault := (c9UnlockPost.vaults 0).getD c9Vault

/-- The order book produced by a successful order placement. -/
def placedBook (book : OrderBook) (owner : Addr) (price quantity side : Nat)
    (now : Nat) : OrderBook :=
  { book with
    next_order_id := book.next_order_id + 1
    orders := upd book.orders book.next_order_id
      { order_id := book.next_order_id
        owner := owner
        price := price
        quantity := quantity
        filled_quantity := 0
        side := side
        status := order_book.ORDER_STATUS_OPEN
        timestamp := now }
    user_orders := upd book.user_orders owner
      ((book.user_orders owner).getD [] ++ [book.next_order_id]) }

/-- A vault for the C7 witness: user 1 has 100 available. -/
def c7Vault : Vault :=
  { reference_trader := 9
    total_deposits := 100
    total_shares := 100
    user_shares := fun a => if a = 1 then some 100 else none
    user_available_balance := fun a => if a = 1 then some 100 else none
    user_locked_balance := fun a => if a = 1 then some 0 else none
    is_active := true }

/-- An empty order book for the C7 witness, backed by the vault at 0. -/
def c7Book : OrderBook :=
  { next_order_id := 1
    orders := fun _ => none
    user_orders := fun _ => none
    vault_address := 0 }

/-- State for the C7 witness: vault at 0, order book at 2. -/
def c7State : GState :=
  { emptyState with
    vaults := fun a => if a = 0 then some c7Vault else none
    books := fun a => if a = 2 then some c7Book else none }

/-- Post-state of the C7 witness Bid placement (price 10, quantity 5). -/
def c7Post : GState :=
  (order_book.place_order 1 2 10 5 0 c7State).toOption.getD emptyState

/-- The order produced by a successful `fill_order` of `fill_quantity`. -/
def filledOrder (order : Order) (fill_quantity : Nat) : Order :=
  { order with
    filled_quantity := order.filled_quantity + fill_quantity
    status := if order.quantity - (order.filled_quantity + fill_quantity) = 0
      then order_book.ORDER_STATUS_FILLED else order_book.ORDER_STATUS_PARTIALLY_FILLED }

/-- A vault for the C8 witness: maker 1 has 1000 locked (a Bid of
price 10 × quantity 100), taker 2 has 100 locked. -/
def c8Vault : Vault :=
  { reference_trader := 9
    total_deposits := 1100
    total_shares := 1100
    user_shares := fun a => if a = 1 then some 1000 else if a = 2 then some 100 else none
    user_available_balance := fun a => if a = 1 ∨ a = 2 then some 0 else none
    user_locked_balance := fun a =>
      if a = 1 then some 1000 else if a = 2 then some 100 else none
    is_active := true }

/-- The open Bid maker order of the C8 witness: price 10, quantity 100. -/
def c8Order : Order :=
  { order_id := 1, owner := 1, price := 10, quantity := 100, filled_quantity := 0,
    side := 0, status := 0, timestamp := 0 }

/-- The order book of the C8 witness, holding the Bid as order 1. -/
def c8Book : OrderBook :=
  { next_order_id := 2
    orders := fun n => if n = 1 then some c8Order else none
    user_orders := fun a => if a = 1 then some [1] else none
    vault_address := 0 }

/-- State for the C8 witness: vault at 0, order book at 3. -/
def c8State : GState :=
  { emptyState with
    vaults := fun a => if a = 0 then some c8Vault else none
    books := fun a => if a = 3 then some c8Book else none }

/-- Post-state of the first fill of 50 in the C8 witness. -/
def c8Fill1 : GState :=
  (order_book.fill_order 9 3 1 2 50 c8State).toOption.getD emptyState

/-- The order book after the first C8 witness fill. -/
def c8Book1 : OrderBook := (c8Fill1.books 3).getD c8Book

/-- The maker order after the first C8 witness fill. -/
def c8Order1 : Order := (c8Book1.orders 1).getD c8Order

/-- Post-state of the second fill of 50 in the C8 witness. -/
def c8Fill2 : GState :=
  (order_book.fill_order 9 3 1 2 50 c8Fill1).toOption.getD emptyState

/-- Post-state of the C4 counterexample run: from a fresh vault at 0, user 1
deposits 3 (getting 3 shares at 1:1) and then withdraws 1 share. -/
def c4Post : GState :=
  (((strategy_vault.deposit 1 0 3 (strategy_vault.initialize_vault 0 9 c4Start)).bind
    (strategy_vault.withdraw 1 0 1)).toOption).getD emptyState

/-- The vault of the C4 counterexample post-state. -/
def c4PostVault : Vault :=
  (c4Post.vaults 0).getD
    ⟨9, 0, 0, fun _ => none, fun _ => none, fun _ => none, true⟩

/-- The vault value `initialize_vault` creates. -/
def freshVault (reference_trader : Addr) : Vault :=
  { reference_trader := reference_trader
    total_deposits := 0
    total_shares := 0
    user_shares := fun _ => none
    user_available_balance := fun _ => none
    user_locked_balance := fun _ => none
    is_active := true }

/-- States of the vault at `va` reachable from a fresh initialization by
`deposit`, `credit_deposit`, `lock_balance` and `unlock_balance` calls of
arbitrary users — every vault operation except `withdraw` (which shrinks the
share backing without touching the balance views) and `settle_order` (which
moves balances between users without moving shares). -/
inductive ReachVaultOps (va : Addr) : GState → Prop where
  | init (rt : Addr) (s0 : GState) (h : s0.vaults va = none) :
      ReachVaultOps va (strategy_vault.initialize_vault va rt s0)
  | dep (u : Addr) (s s' : GState) (a : Nat) (hr : ReachVaultOps va s)
      (h : strategy_vault.deposit u va a s = .ok s') : ReachVaultOps va s'
  | cred (f u : Addr) (s s' : GState) (a : Nat) (hr : ReachVaultOps va s)
      (h : strategy_vault.credit_deposit f va u a s = .ok s') : ReachVaultOps va s'
  | lock (u : Addr) (s s' : GState) (a : Nat) (hr : ReachVaultOps va s)
      (h : strategy_vault.lock_balance va u a s = .ok s') : ReachVaultOps va s'
  | unlock (u : Addr) (s s' : GState) (a : Nat) (hr : ReachVaultOps va s)
      (h : strategy_vault.unlock_balance va u a s = .ok s') : ReachVaultOps va s'

/-- The inductive invariant of the no-withdraw fragment: deposits and shares
stay 1:1 (so minting is always exact), no user holds more shares than exist,
and every user's balance views add up to exactly that user's shares. -/
def VaultNoWithdrawInv (va : Addr) (s : GState) : Prop :=
  ∃ v, s.vaults va = some v ∧ v.total_deposits = v.total_shares ∧
    (∀ u, v.sharesOf u ≤ v.total_shares) ∧
    (∀ u, v.availOf u + v.lockedOf u = v.sharesOf u)

/-- Post-state of the C4 witness: user 1 deposits 3, user 2 is credited 5,
user 1 locks 2 — a two-user state of the no-withdraw fragment. -/
def c4WitnessPost : GState :=
  ((((strategy_vault.deposit 1 0 3 (strategy_vault.initialize_vault 0 9 c4Start)).bind
    (strategy_vault.credit_deposit 7 0 2 5)).bind
    (strategy_vault.lock_balance 0 1 2)).toOption).getD emptyState

theorem upd_self {κ α : Type} [DecidableEq κ] (t : κ → Option α) (k : κ) (v : α) :
    upd t k v k = some v := by
  simp [upd]

theorem upd_other {κ α : Type} [DecidableEq κ] (t : κ → Option α) (k k' : κ) (v : α)
    (h : k' ≠ k) : upd t k v k' = t k' := by
  simp [upd, h]

/-- C1: the claim says a fully validated authorization moves `amount` out of
the SENDER's balance into the recipient's.  The source instead executes
`coin::transfer<CoinType>(facilitator, recipient, amount)`: at the failing
input below (facilitator 0, sender 1, recipient 2, amount 30, every check
passing) the sender's balance is untouched (stays 50) and the facilitator is
debited (100 ↦ 70) while the recipient receives 30 — even though the emitted
event names the sender as payer. -/
theorem c1_transfer_debits_facilitator_not_sender :
    (payment_with_auth.transfer_with_authorization (fun _ _ _ => true) 0 1 2 30 7 10 [] []
        c1State).map (fun s => (s.coins 1, s.coins 0, s.coins 2, s.events))
      = .ok (50, 70, 30, [Event.paymentExecuted ⟨1, 2, 30, 7, 0⟩]) := by rfl

/-- C2: `transfer_with_authorization` checks its preconditions in the fixed
order expiry → nonce-store existence → nonce freshness → signature, and
aborts with the first violated one (an abort rolls the transaction back, so
no state change persists).  In particular the first conjunct applies to any
`verify`, so an expired authorization fails with `Expired` even when its
signature is valid. -/
theorem c2_precondition_order (verify : List Nat → List Nat → List Nat → Bool)
    (facilitator sender recipient : Addr) (amount nonce expiry : Nat)
    (signature public_key : List Nat) (s : GState) :
    (s.now > expiry →
      payment_with_auth.transfer_with_authorization verify facilitator sender recipient
          amount nonce expiry signature public_key s
        = .error (.abortCode payment_with_auth.E_AUTHORIZATION_EXPIRED)) ∧
    (s.now ≤ expiry → s.nonceStores sender = none →
      payment_with_auth.transfer_with_authorization verify facilitator sender recipient
          amount nonce expiry signature public_key s
        = .error (.abortCode payment_with_auth.E_NONCE_STORE_NOT_INITIALIZED)) ∧
    (∀ ns, s.now ≤ expiry → s.nonceStores sender = some ns →
      (ns.used_nonces nonce).isSome →
      payment_with_auth.transfer_with_authorization verify facilitator sender recipient
          amount nonce expiry signature public_key s
        = .error (.abortCode payment_with_auth.E_NONCE_ALREADY_USED)) ∧
    (∀ ns, s.now ≤ expiry → s.nonceStores sender = some ns →
      ns.used_nonces nonce = none →
      verify signature public_key (payment_with_auth.construct_authorization_message
        sender recipient amount nonce expiry) = false →
      payment_with_auth.transfer_with_authorization verify facilitator sender recipient
          amount nonce expiry signature public_key s
        = .error (.abortCode payment_with_auth.E_INVALID_SIGNATURE)) := by
  refine ⟨?_, ?_, ?_, ?_⟩
  · intro h
    simp [payment_with_auth.transfer_with_authorization, h]
  · intro h hns
    simp [payment_with_auth.transfer_with_authorization, Nat.not_lt.mpr h, hns]
  · intro ns h hns hused
    simp [payment_with_auth.transfer_with_authorization, Nat.not_lt.mpr h, hns, hused]
  · intro ns h hns hfresh hsig
    simp [payment_with_auth.transfer_with_authorization, Nat.not_lt.mpr h, hns, hfresh, hsig]

/-- Witness for C2: each of the four error outcomes happens at a concrete
input; the expiry case uses an always-true verifier. -/
theorem c2_precondition_order_witness :
    (payment_with_auth.transfer_with_authorization (fun _ _ _ => true) 0 1 2 30 7 3 [] []
        c2LateState = .error (.abortCode payment_with_auth.E_AUTHORIZATION_EXPIRED)) ∧
    (payment_with_auth.transfer_with_authorization (fun _ _ _ => true) 0 1 2 30 7 3 [] []
        emptyState = .error (.abortCode payment_with_auth.E_NONCE_STORE_NOT_INITIALIZED)) ∧
    (payment_with_auth.transfer_with_authorization (fun _ _ _ => true) 0 1 2 30 7 3 [] []
        c2UsedState = .error (.abortCode payment_with_auth.E_NONCE_ALREADY_USED)) ∧
    (payment_with_auth.transfer_with_authorization (fun _ _ _ => false) 0 1 2 30 7 3 [] []
        c2FreshState = .error (.abortCode payment_with_auth.E_INVALID_SIGNATURE)) :=
  ⟨(c2_precondition_order (fun _ _ _ => true) 0 1 2 30 7 3 [] [] c2LateState).1 (by decide),
   (c2_precondition_order (fun _ _ _ => true) 0 1 2 30 7 3 [] [] emptyState).2.1
     (by decide) rfl,
   (c2_precondition_order (fun _ _ _ => true) 0 1 2 30 7 3 [] [] c2UsedState).2.2.1
     store7 (by decide) rfl (by decide),
   (c2_precondition_order (fun _ _ _ => false) 0 1 2 30 7 3 [] [] c2FreshState).2.2.2
     freshStore (by decide) rfl rfl rfl⟩

/-- Successful `coinTransfer` changes only the coin ledger. -/
theorem coinTransfer_ok_frame (src dst : Addr) (amount : Nat) (s s' : GState)
    (h : coinTransfer src dst amount s = .ok s') :
    s'.nonceStores = s.nonceStores ∧ s'.vaults = s.vaults ∧ s'.books = s.books ∧
    s'.events = s.events ∧ s'.now = s.now := by
  unfold coinTransfer at h
  dsimp only at h
  repeat' split at h
  all_goals cases h
  all_goals exact ⟨rfl, rfl, rfl, rfl, rfl⟩

/-- C3 counterexample: the claim says a downstream transfer failure still
leaves the nonce burned.  At this concrete input steps 1–4 all pass and the
funds transfer fails, but a Move abort rolls the whole transaction back: the
call returns an error, no post-state exists, and the caller's state still has
the nonce unused. -/
theorem c3_failed_transfer_rolls_back_nonce :
    payment_with_auth.transfer_with_authorization (fun _ _ _ => true) 0 1 2 30 7 10 [] []
        c3State = .error .insufficientCoinBalance ∧
    payment_with_auth.is_nonce_used 1 7 c3State = false := ⟨rfl, rfl⟩

/-- C3 amended: in program order the nonce is marked used before the funds
move, but abort atomicity means a failed transfer burns nothing; what holds
is that every SUCCESSFUL `transfer_with_authorization` leaves the nonce
marked used in the resulting state. -/
theorem c3_success_marks_nonce_used (verify : List Nat → List Nat → List Nat → Bool)
    (facilitator sender recipient : Addr) (amount nonce expiry : Nat)
    (signature public_key : List Nat) (s s' : GState)
    (h : payment_with_auth.transfer_with_authorization verify facilitator sender recipient
      amount nonce expiry signature public_key s = .ok s') :
    payment_with_auth.is_nonce_used sender nonce s' = true := by
  unfold payment_with_auth.transfer_with_authorization at h
  dsimp only at h
  repeat' split at h
  any_goals cases h
  rename_i s2 hct
  have hframe := coinTransfer_ok_frame _ _ _ _ _ hct
  simp [payment_with_auth.is_nonce_used, hframe.1, upd]

/-- Witness for C3 (amended): a concrete successful run marks nonce 7 used. -/
theorem c3_success_marks_nonce_used_witness :
    payment_with_auth.is_nonce_used 1 7 c3OkPost = true :=
  c3_success_marks_nonce_used (fun _ _ _ => true) 0 1 2 30 7 10 [] [] c3OkState c3OkPost rfl

/-- C5 counterexample: with nonce 7 already used, a subsequent
`transfer_with_authorization` carrying an expired `expiry` fails with
`Expired` (code 2), not `AlreadyUsed` (code 1) — the claim's "regardless of
the other payload fields" is false for the expiry field, because the expiry
check precedes the nonce check. -/
theorem c5_used_nonce_can_fail_with_expired :
    payment_with_auth.is_nonce_used 1 7 c5State = true ∧
    payment_with_auth.transfer_with_authorization (fun _ _ _ => true) 0 1 2 30 7 3 [] []
        c5State = .error (.abortCode payment_with_auth.E_AUTHORIZATION_EXPIRED) ∧
    payment_with_auth.E_AUTHORIZATION_EXPIRED ≠ payment_with_auth.E_NONCE_ALREADY_USED :=
  ⟨rfl, rfl, by decide⟩

/-- Successful `lock_balance` changes only the vault table. -/
theorem lock_balance_ok_frame (va u : Addr) (a : Nat) (s s' : GState)
    (h : strategy_vault.lock_balance va u a s = .ok s') :
    s'.nonceStores = s.nonceStores ∧ s'.books = s.books ∧ s'.coins = s.coins ∧
    s'.events = s.events ∧ s'.now = s.now := by
  unfold strategy_vault.lock_balance at h
  dsimp only at h
  repeat' split at h
  all_goals cases h
  all_goals exact ⟨rfl, rfl, rfl, rfl, rfl⟩

/-- Successful `unlock_balance` changes only the vault table. -/
theorem unlock_balance_ok_frame (va u : Addr) (a : Nat) (s s' : GState)
    (h : strategy_vault.unlock_balance va u a s = .ok s') :
    s'.nonceStores = s.nonceStores ∧ s'.books = s.books ∧ s'.coins = s.coins ∧
    s'.events = s.events ∧ s'.now = s.now := by
  unfold strategy_vault.unlock_balance at h
  try dsimp only at h
  repeat' split at h
  all_goals cases h
  all_goals exact ⟨rfl, rfl, rfl, rfl, rfl⟩

/-- Successful `settle_order` changes only the vault table. -/
theorem settle_order_ok_frame (va fr dst : Addr) (a : Nat) (s s' : GState)
    (h : strategy_vault.settle_order va fr dst a s = .ok s') :
    s'.nonceStores = s.nonceStores ∧ s'.books = s.books ∧ s'.coins = s.coins ∧
    s'.events = s.events ∧ s'.now = s.now := by
  unfold strategy_vault.settle_order at h
  try dsimp only at h
  repeat' split at h
  all_goals cases h
  all_goals exact ⟨rfl, rfl, rfl, rfl, rfl⟩

/-- Successful `deposit` never touches nonce stores or order books. -/
theorem deposit_ok_frame (u va : Addr) (a : Nat) (s s' : GState)
    (h : strategy_vault.deposit u va a s = .ok s') :
    s'.nonceStores = s.nonceStores ∧ s'.books = s.books := by
  unfold strategy_vault.deposit at h
  try dsimp only at h
  repeat' split at h
  all_goals cases h
  rename coinTransfer _ _ _ _ = Except.ok _ => hct
  have hf := coinTransfer_ok_frame _ _ _ _ _ hct
  exact ⟨hf.1, hf.2.2.1⟩

/-- Successful `credit_deposit` never touches nonce stores or order books. -/
theorem credit_deposit_ok_frame (f va u : Addr) (a : Nat) (s s' : GState)
    (h : strategy_vault.credit_deposit f va u a s = .ok s') :
    s'.nonceStores = s.nonceStores ∧ s'.books = s.books := by
  unfold strategy_vault.credit_deposit at h
  try dsimp only at h
  repeat' split at h
  all_goals cases h
  exact ⟨rfl, rfl⟩

/-- Successful `withdraw` never touches nonce stores or order books. -/
theorem withdraw_ok_frame (u va : Addr) (sh : Nat) (s s' : GState)
    (h : strategy_vault.withdraw u va sh s = .ok s') :
    s'.nonceStores = s.nonceStores ∧ s'.books = s.books := by
  unfold strategy_vault.withdraw at h
  try dsimp only at h
  repeat' split at h
  all_goals cases h
  exact ⟨rfl, rfl⟩

/-- `record_vault_trade` only appends an event. -/
theorem record_vault_trade_ok_frame (f va : Addr) (t : Nat) (s s' : GState)
    (h : strategy_vault.record_vault_trade f va t s = .ok s') :
    s'.nonceStores = s.nonceStores ∧ s'.books = s.books := by
  unfold strategy_vault.record_vault_trade at h
  try dsimp only at h
  repeat' split at h
  all_goals cases h
  exact ⟨rfl, rfl⟩

/-- Successful order placement never touches nonce stores. -/
theorem placeOrderOwned_ok_frame (ow ba : Addr) (p q sd : Nat) (s s' : GState)
    (h : order_book.placeOrderOwned ow ba p q sd s = .ok s') :
    s'.nonceStores = s.nonceStores := by
  unfold order_book.placeOrderOwned at h
  try dsimp only at h
  repeat' split at h
  all_goals cases h
  rename strategy_vault.lock_balance _ _ _ _ = Except.ok _ => hlk
  exact (lock_balance_ok_frame _ _ _ _ _ hlk).1

/-- Successful `cancel_order` never touches nonce stores. -/
theorem cancel_order_ok_frame (u ba : Addr) (oid : Nat) (s s' : GState)
    (h : order_book.cancel_order u ba oid s = .ok s') :
    s'.nonceStores = s.nonceStores := by
  unfold order_book.cancel_order at h
  try dsimp only at h
  repeat' split at h
  all_goals cases h
  rename strategy_vault.unlock_balance _ _ _ _ = Except.ok _ => hul
  exact (unlock_balance_ok_frame _ _ _ _ _ hul).1

/-- Successful `settleBothLegs` changes only the vault table. -/
theorem settleBothLegs_ok_frame (va mk tk : Addr) (sd fv fq : Nat) (s s' : GState)
    (h : order_book.settleBothLegs va mk tk sd fv fq s = .ok s') :
    s'.nonceStores = s.nonceStores ∧ s'.books = s.books ∧ s'.coins = s.coins ∧
    s'.events = s.events ∧ s'.now = s.now := by
  unfold order_book.settleBothLegs at h
  split at h
  all_goals split at h
  any_goals cases h
  all_goals rename_i sa hlegA
  all_goals
    have hf1 := settle_order_ok_frame _ _ _ _ _ _ hlegA
    have hf2 := settle_order_ok_frame _ _ _ _ _ _ h
    refine ⟨?_, ?_, ?_, ?_, ?_⟩ <;>
      simp only [hf1.1, hf2.1, hf1.2.1, hf2.2.1, hf1.2.2.1, hf2.2.2.1,
        hf1.2.2.2.1, hf2.2.2.2.1, hf1.2.2.2.2, hf2.2.2.2.2]

/-- Successful `fill_order` never touches nonce stores. -/
theorem fill_order_ok_frame (f ba : Addr) (oid : Nat) (tk : Addr) (fq : Nat) (s s' : GState)
    (h : order_book.fill_order f ba oid tk fq s = .ok s') :
    s'.nonceStores = s.nonceStores := by
  unfold order_book.fill_order at h
  try dsimp only at h
  repeat' split at h
  all_goals cases h
  all_goals
    rename order_book.settleBothLegs _ _ _ _ _ _ _ = Except.ok _ => hlegs
  all_goals exact (settleBothLegs_ok_frame _ _ _ _ _ _ _ _ hlegs).1

/-- `is_nonce_used` only looks at the nonce stores. -/
theorem is_nonce_used_congr (u : Addr) (n : Nat) (s s' : GState)
    (h : s'.nonceStores = s.nonceStores) :
    payment_with_auth.is_nonce_used u n s' = payment_with_auth.is_nonce_used u n s := by
  unfold payment_with_auth.is_nonce_used
  rw [h]

/-- A successful `transfer_with_authorization` only ever adds used nonces. -/
theorem transfer_ok_nonce_monotone (verify : List Nat → List Nat → List Nat → Bool)
    (f sn r : Addr) (am nonceArg e : Nat) (sg pk : List Nat) (u : Addr) (m : Nat)
    (s s' : GState)
    (h : payment_with_auth.transfer_with_authorization verify f sn r am nonceArg e sg pk s
      = .ok s')
    (hu : payment_with_auth.is_nonce_used u m s = true) :
    payment_with_auth.is_nonce_used u m s' = true := by
  unfold payment_with_auth.transfer_with_authorization at h
  dsimp only at h
  repeat' split at h
  any_goals cases h
  rename coinTransfer _ _ _ _ = Except.ok _ => hct
  rename s.nonceStores _ = some _ => hns
  have hf := coinTransfer_ok_frame _ _ _ _ _ hct
  unfold payment_with_auth.is_nonce_used at hu ⊢
  simp only [hf.1, upd]
  by_cases hua : u = sn
  · subst hua
    rw [hns] at hu
    simp only [if_pos rfl]
    dsimp only at hu ⊢
    by_cases hmn : m = nonceArg
    · simp [hmn]
    · simp_all
  · simp only [if_neg hua]
    exact hu

/-- C5 amended: once a (user, nonce) pair is marked used it never reverts to
unused under any successful entry-point call of the three modules, and every
subsequent `transfer_with_authorization` with the same (sender, nonce) whose
expiry has not yet passed fails with `AlreadyUsed` regardless of recipient,
amount, signature and public key.  (The unqualified original claim is refuted
in the C5 counterexample: an expired replay fails with `Expired` instead,
because the expiry check runs first.) -/
theorem c5_used_nonce_permanent_and_blocks_replay :
    (∀ (op : Op) (u : Addr) (n : Nat) (s s' : GState), applyOp op s = .ok s' →
      payment_with_auth.is_nonce_used u n s = true →
      payment_with_auth.is_nonce_used u n s' = true) ∧
    (∀ (verify : List Nat → List Nat → List Nat → Bool) (f r : Addr)
      (am e : Nat) (sg pk : List Nat) (u : Addr) (n : Nat) (s : GState),
      payment_with_auth.is_nonce_used u n s = true → s.now ≤ e →
      payment_with_auth.transfer_with_authorization verify f u r am n e sg pk s
        = .error (.abortCode payment_with_auth.E_NONCE_ALREADY_USED)) := by
  constructor
  · intro op u n s s' h hu
    cases op with
    | initializeNonceStore a =>
      simp only [applyOp] at h
      cases h
      unfold payment_with_auth.initialize_nonce_store
      split
      · exact hu
      · rename_i hnone
        unfold payment_with_auth.is_nonce_used at hu ⊢
        by_cases hua : u = a
        · subst hua
          rw [hnone] at hu
          cases hu
        · simp only [upd, if_neg hua]
          exact hu
    | transferWithAuthorization v f sn r am nn e sg pk =>
      exact transfer_ok_nonce_monotone v f sn r am nn e sg pk u n s s' h hu
    | initializeVault ad rt =>
      simp only [applyOp] at h
      cases h
      unfold strategy_vault.initialize_vault
      split <;> exact hu
    | depositOp du va a =>
      rw [is_nonce_used_congr u n s s' (deposit_ok_frame du va a s s' h).1]
      exact hu
    | creditDepositOp cf va cu a =>
      rw [is_nonce_used_congr u n s s' (credit_deposit_ok_frame cf va cu a s s' h).1]
      exact hu
    | withdrawOp wu va sh =>
      rw [is_nonce_used_congr u n s s' (withdraw_ok_frame wu va sh s s' h).1]
      exact hu
    | recordVaultTradeOp rf va t =>
      rw [is_nonce_used_congr u n s s' (record_vault_trade_ok_frame rf va t s s' h).1]
      exact hu
    | lockBalanceOp va lu a =>
      rw [is_nonce_used_congr u n s s' (lock_balance_ok_frame va lu a s s' h).1]
      exact hu
    | unlockBalanceOp va uu a =>
      rw [is_nonce_used_congr u n s s' (unlock_balance_ok_frame va uu a s s' h).1]
      exact hu
    | settleOrderOp va fr dst a =>
      rw [is_nonce_used_congr u n s s' (settle_order_ok_frame va fr dst a s s' h).1]
      exact hu
    | initializeOrderBook ad va =>
      simp only [applyOp] at h
      cases h
      unfold order_book.initialize_order_book
      split <;> exact hu
    | placeOrderOp pu ba p q sd =>
      rw [is_nonce_used_congr u n s s' (placeOrderOwned_ok_frame pu ba p q sd s s' h)]
      exact hu
    | placeOrderForUserOp pf ba pu p q sd =>
      rw [is_nonce_used_congr u n s s' (placeOrderOwned_ok_frame pu ba p q sd s s' h)]
      exact hu
    | cancelOrderOp cu ba oid =>
      rw [is_nonce_used_congr u n s s' (cancel_order_ok_frame cu ba oid s s' h)]
      exact hu
    | fillOrderOp ff ba oid tk fq =>
      rw [is_nonce_used_congr u n s s' (fill_order_ok_frame ff ba oid tk fq s s' h)]
      exact hu
  · intro verify f r am e sg pk u n s hu hexp
    unfold payment_with_auth.is_nonce_used at hu
    cases hns : s.nonceStores u with
    | none =>
      rw [hns] at hu
      cases hu
    | some ns =>
      rw [hns] at hu
      dsimp only at hu
      simp [payment_with_auth.transfer_with_authorization, Nat.not_lt.mpr hexp, hns, hu]

/-- Witness for C5 (amended): with nonce 7 of user 1 used, initializing a
nonce store for user 2 keeps it used, and an unexpired replay with a
different recipient/amount/signature fails with `AlreadyUsed`. -/
theorem c5_used_nonce_permanent_and_blocks_replay_witness :
    payment_with_auth.is_nonce_used 1 7
      (payment_with_auth.initialize_nonce_store 2 c2UsedState) = true ∧
    payment_with_auth.transfer_with_authorization (fun _ _ _ => true) 0 1 5 999 7 3 [] []
      c2UsedState = .error (.abortCode payment_with_auth.E_NONCE_ALREADY_USED) :=
  ⟨c5_used_nonce_permanent_and_blocks_replay.1 (.initializeNonceStore 2) 1 7 c2UsedState
      (payment_with_auth.initialize_nonce_store 2 c2UsedState) rfl rfl,
   c5_used_nonce_permanent_and_blocks_replay.2 (fun _ _ _ => true) 0 5 999 3 [] [] 1 7
      c2UsedState rfl (by decide)⟩

/-- C6: for every deposit or credit_deposit that succeeds from a state whose
vault is `v`, the shares minted are `amount` when `v.total_shares = 0` and
`amount * total_shares / total_deposits` (truncating, on the pre-call totals)
otherwise; `total_deposits` grows by `amount`, `total_shares` and the user's
shares grow by the minted shares, and the user's available balance grows by
`amount`. -/
theorem c6_deposit_and_credit_mint_proportional_shares (u va : Addr) (amount : Nat)
    (s : GState) (v : Vault) (hv : s.vaults va = some v) :
    (∀ s', strategy_vault.deposit u va amount s = .ok s' →
      ∃ v', s'.vaults va = some v' ∧
        v'.total_deposits = v.total_deposits + amount ∧
        v'.total_shares = v.total_shares + strategy_vault.shares_to_mint v amount ∧
        v'.sharesOf u = v.sharesOf u + strategy_vault.shares_to_mint v amount ∧
        v'.availOf u = v.availOf u + amount) ∧
    (∀ f s', strategy_vault.credit_deposit f va u amount s = .ok s' →
      ∃ v', s'.vaults va = some v' ∧
        v'.total_deposits = v.total_deposits + amount ∧
        v'.total_shares = v.total_shares + strategy_vault.shares_to_mint v amount ∧
        v'.sharesOf u = v.sharesOf u + strategy_vault.shares_to_mint v amount ∧
        v'.availOf u = v.availOf u + amount) ∧
    (v.total_shares = 0 → strategy_vault.shares_to_mint v amount = amount) ∧
    (v.total_shares ≠ 0 → strategy_vault.shares_to_mint v amount
      = amount * v.total_shares / v.total_deposits) := by
  refine ⟨?_, ?_, ?_, ?_⟩
  · intro s' h
    unfold strategy_vault.deposit at h
    rw [hv] at h
    try dsimp only at h
    repeat' split at h
    any_goals cases h
    rename coinTransfer _ _ _ _ = Except.ok _ => hct
    rename strategy_vault.depositAccounting _ _ _ = Except.ok _ => hacc
    have hf := coinTransfer_ok_frame _ _ _ _ _ hct
    unfold strategy_vault.depositAccounting at hacc
    try dsimp only at hacc
    repeat' split at hacc
    any_goals cases hacc
    refine ⟨strategy_vault.depositResultVault v u amount, ?_, rfl, rfl, ?_, ?_⟩
    · rw [hf.2.1]
      exact upd_self _ _ _
    · simp [Vault.sharesOf, upd, strategy_vault.depositResultVault]
    · simp [Vault.availOf, upd, strategy_vault.depositResultVault]
  · intro f s' h
    unfold strategy_vault.credit_deposit at h
    rw [hv] at h
    try dsimp only at h
    repeat' split at h
    any_goals cases h
    rename strategy_vault.depositAccounting _ _ _ = Except.ok _ => hacc
    unfold strategy_vault.depositAccounting at hacc
    try dsimp only at hacc
    repeat' split at hacc
    any_goals cases hacc
    refine ⟨strategy_vault.depositResultVault v u amount, ?_, rfl, rfl, ?_, ?_⟩
    · exact upd_self _ _ _
    · simp [Vault.sharesOf, upd, strategy_vault.depositResultVault]
    · simp [Vault.availOf, upd, strategy_vault.depositResultVault]
  · intro h0
    simp [strategy_vault.shares_to_mint, h0]
  · intro h0
    simp [strategy_vault.shares_to_mint, h0]

/-- Witness for C6: depositing 4 into the 10-deposits/5-shares vault mints
floor(4*5/10) = 2 shares and credits 4 of available balance, via both entry
points; the first deposit into a fresh vault mints 1:1. -/
theorem c6_deposit_and_credit_mint_proportional_shares_witness :
    (∃ v', c6DepositPost.vaults 0 = some v' ∧ v'.total_deposits = 14 ∧
      v'.total_shares = 7 ∧ v'.sharesOf 1 = 4 ∧ v'.availOf 1 = 8) ∧
    (∃ v', c6CreditPost.vaults 0 = some v' ∧ v'.total_deposits = 14 ∧
      v'.total_shares = 7 ∧ v'.sharesOf 1 = 4 ∧ v'.availOf 1 = 8) ∧
    strategy_vault.shares_to_mint c6FreshVault 4 = 4 ∧
    strategy_vault.shares_to_mint c6Vault 4 = 2 := by
  refine ⟨?_, ?_, ?_, ?_⟩
  · obtain ⟨v', h1, h2, h3, h4, h5⟩ :=
      (c6_deposit_and_credit_mint_proportional_shares 1 0 4 c6State c6Vault rfl).1
        c6DepositPost rfl
    exact ⟨v', h1, h2.trans (by decide), h3.trans (by decide), h4.trans (by decide),
      h5.trans (by decide)⟩
  · obtain ⟨v', h1, h2, h3, h4, h5⟩ :=
      (c6_deposit_and_credit_mint_proportional_shares 1 0 4 c6State c6Vault rfl).2.1 9
        c6CreditPost rfl
    exact ⟨v', h1, h2.trans (by decide), h3.trans (by decide), h4.trans (by decide),
      h5.trans (by decide)⟩
  · exact (c6_deposit_and_credit_mint_proportional_shares 1 0 4 c6FreshState c6FreshVault
      rfl).2.2.1 rfl
  · exact ((c6_deposit_and_credit_mint_proportional_shares 1 0 4 c6State c6Vault
      rfl).2.2.2 (by decide)).trans (by decide)

/-- `lock_balance` succeeds and produces `lockResultVault` whenever the user
has `amount` available and the locked side cannot overflow. -/
theorem lock_balance_spec (va u : Addr) (a : Nat) (s : GState) (v : Vault)
    (hv : s.vaults va = some v) (hge : a ≤ (v.user_available_balance u).getD 0)
    (hov : (v.user_locked_balance u).getD 0 + a ≤ U64MAX) :
    strategy_vault.lock_balance va u a s
      = .ok { s with vaults := upd s.vaults va (strategy_vault.lockResultVault v u a) } := by
  unfold strategy_vault.lock_balance
  rw [hv]
  dsimp only
  rw [if_neg (by omega), if_neg (by omega)]
  rfl

/-- `unlock_balance` succeeds and produces `unlockResultVault` whenever both
entries exist, `amount` is locked and the available side cannot overflow. -/
theorem unlock_balance_spec (va u : Addr) (a : Nat) (s : GState) (v : Vault) (x y : Nat)
    (hv : s.vaults va = some v)
    (hav : v.user_available_balance u = some x) (hlk : v.user_locked_balance u = some y)
    (hge : a ≤ y) (hov : x + a ≤ U64MAX) :
    strategy_vault.unlock_balance va u a s
      = .ok { s with vaults := upd s.vaults va (strategy_vault.unlockResultVault v u a) } := by
  unfold strategy_vault.unlock_balance
  rw [hv]
  dsimp only
  rw [hav]
  dsimp only
  rw [hlk]
  dsimp only
  rw [if_neg (by omega), if_neg (by omega)]
  simp [strategy_vault.unlockResultVault, hav, hlk]

/-- C9: `lock_balance` moves `amount` from available to locked and
`unlock_balance` moves it back, each preserving the user's total
available + locked balance, and a lock followed by an unlock of the same
amount restores both views to their exact pre-lock values (the balance bounds
in the round-trip hypotheses are `u64` well-formedness bounds that every real
state satisfies). -/
theorem c9_lock_unlock_roundtrip (va u : Addr) (a : Nat) :
    (∀ (s s' : GState) (v v' : Vault),
      s.vaults va = some v → strategy_vault.lock_balance va u a s = .ok s' →
      s'.vaults va = some v' →
      v'.availOf u = v.availOf u - a ∧ v'.lockedOf u = v.lockedOf u + a ∧
      v'.totalOf u = v.totalOf u) ∧
    (∀ (s s' : GState) (v v' : Vault),
      s.vaults va = some v → strategy_vault.unlock_balance va u a s = .ok s' →
      s'.vaults va = some v' →
      v'.availOf u = v.availOf u + a ∧ v'.lockedOf u = v.lockedOf u - a ∧
      v'.totalOf u = v.totalOf u) ∧
    (∀ (s : GState) (v : Vault),
      s.vaults va = some v → a ≤ v.availOf u → v.availOf u ≤ U64MAX →
      v.lockedOf u + a ≤ U64MAX →
      ∃ s' s'' v'',
        strategy_vault.lock_balance va u a s = .ok s' ∧
        strategy_vault.unlock_balance va u a s' = .ok s'' ∧
        s''.vaults va = some v'' ∧
        v''.availOf u = v.availOf u ∧ v''.lockedOf u = v.lockedOf u) := by
  refine ⟨?_, ?_, ?_⟩
  · intro s s' v v' hv h hv'
    unfold strategy_vault.lock_balance at h
    rw [hv] at h
    try dsimp only at h
    repeat' split at h
    any_goals cases h
    dsimp only at hv'
    rw [upd_self] at hv'
    cases hv'
    refine ⟨?_, ?_, ?_⟩
    · simp [Vault.availOf, upd]
    · simp [Vault.lockedOf, upd]
    · simp [Vault.totalOf, Vault.availOf, Vault.lockedOf, upd]
      omega
  · intro s s' v v' hv h hv'
    unfold strategy_vault.unlock_balance at h
    rw [hv] at h
    try dsimp only at h
    repeat' split at h
    any_goals cases h
    rename v.user_available_balance u = some _ => hav
    rename v.user_locked_balance u = some _ => hlk
    dsimp only at hv'
    rw [upd_self] at hv'
    cases hv'
    refine ⟨?_, ?_, ?_⟩
    · simp [Vault.availOf, upd, hav]
    · simp [Vault.lockedOf, upd, hlk]
    · simp [Vault.totalOf, Vault.availOf, Vault.lockedOf, upd, hav, hlk]
      omega
  · intro s v hv h1 h2 h3
    simp only [Vault.availOf] at h1 h2
    simp only [Vault.lockedOf] at h3
    have hlockok := lock_balance_spec va u a s v hv h1 h3
    have hL : (upd s.vaults va (strategy_vault.lockResultVault v u a)) va
        = some (strategy_vault.lockResultVault v u a) := upd_self _ _ _
    have hunlockok := unlock_balance_spec va u a
      { s with vaults := upd s.vaults va (strategy_vault.lockResultVault v u a) }
      (strategy_vault.lockResultVault v u a)
      ((v.user_available_balance u).getD 0 - a) ((v.user_locked_balance u).getD 0 + a)
      hL (upd_self _ _ _) (upd_self _ _ _) (by omega) (by omega)
    refine ⟨_, _, strategy_vault.unlockResultVault (strategy_vault.lockResultVault v u a) u a,
      hlockok, hunlockok, upd_self _ _ _, ?_, ?_⟩
    · simp [strategy_vault.lockResultVault, strategy_vault.unlockResultVault,
        Vault.availOf, upd]
      omega
    · simp [strategy_vault.lockResultVault, strategy_vault.unlockResultVault,
        Vault.lockedOf, upd]

/-- Witness for C9: locking 3 moves the views from (10, 2) to (7, 5) keeping
the total 12, unlocking 3 moves them back to (10, 2), and the round trip
exists and restores the views. -/
theorem c9_lock_unlock_roundtrip_witness :
    (c9LockVault.availOf 1 = 7 ∧ c9LockVault.lockedOf 1 = 5 ∧
      c9LockVault.totalOf 1 = c9Vault.totalOf 1) ∧
    (c9UnlockVault.availOf 1 = 10 ∧ c9UnlockVault.lockedOf 1 = 2 ∧
      c9UnlockVault.totalOf 1 = c9LockVault.totalOf 1) ∧
    (∃ s' s'' v'', strategy_vault.lock_balance 0 1 3 c9State = .ok s' ∧
      strategy_vault.unlock_balance 0 1 3 s' = .ok s'' ∧ s''.vaults 0 = some v'' ∧
      v''.availOf 1 = c9Vault.availOf 1 ∧ v''.lockedOf 1 = c9Vault.lockedOf 1) := by
  refine ⟨?_, ?_, ?_⟩
  · obtain ⟨ha, hl, ht⟩ := (c9_lock_unlock_roundtrip 0 1 3).1 c9State c9LockPost
      c9Vault c9LockVault rfl rfl rfl
    exact ⟨ha.trans (by decide), hl.trans (by decide), ht⟩
  · obtain ⟨ha, hl, ht⟩ := (c9_lock_unlock_roundtrip 0 1 3).2.1 c9LockPost c9UnlockPost
      c9LockVault c9UnlockVault rfl rfl rfl
    exact ⟨ha.trans (by decide), hl.trans (by decide), ht⟩
  · exact (c9_lock_unlock_roundtrip 0 1 3).2.2 c9State c9Vault rfl (by decide) (by decide)
      (by decide)

/-- Balance-view characterization of a successful `lock_balance`: the vault
exists, the user had at least `amount` available, and exactly `amount` moved
from the available view to the locked view. -/
theorem lock_balance_ok_views (va u : Addr) (a : Nat) (s s' : GState)
    (h : strategy_vault.lock_balance va u a s = .ok s') :
    ∃ v v', s.vaults va = some v ∧ s'.vaults va = some v' ∧ a ≤ v.availOf u ∧
      v'.availOf u = v.availOf u - a ∧ v'.lockedOf u = v.lockedOf u + a := by
  unfold strategy_vault.lock_balance at h
  try dsimp only at h
  repeat' split at h
  any_goals cases h
  rename_i v hv hinsuff hov
  refine ⟨v, _, hv, upd_self _ _ _, ?_, ?_, ?_⟩
  · simp only [Vault.availOf]
    omega
  · simp [Vault.availOf, upd]
  · simp [Vault.lockedOf, upd]

/-- C7: `place_order` requires a nonzero price and quantity (failing with
`E_INVALID_PRICE` / `E_INVALID_QUANTITY`), locks `price * quantity` for a Bid
and `quantity` otherwise, propagates an insufficient-available-balance
failure from `lock_balance` (aborting with no order created and no state
change), and on success assigns the current `next_order_id`, increments it,
creates the Open order with `filled_quantity = 0`, appends the id to the
owner's index and emits `OrderPlacedEvent`. -/
theorem c7_place_order_locks_and_creates (user ba : Addr) (price quantity side : Nat)
    (s : GState) (book : OrderBook) (hb : s.books ba = some book) :
    (price = 0 → order_book.place_order user ba price quantity side s
        = .error (.abortCode order_book.E_INVALID_PRICE)) ∧
    (price ≠ 0 → quantity = 0 → order_book.place_order user ba price quantity side s
        = .error (.abortCode order_book.E_INVALID_QUANTITY)) ∧
    (∀ v, s.vaults book.vault_address = some v → price ≠ 0 → quantity ≠ 0 →
      (if side = order_book.ORDER_SIDE_BID then price * quantity else quantity) ≤ U64MAX →
      v.availOf user
          < (if side = order_book.ORDER_SIDE_BID then price * quantity else quantity) →
      order_book.place_order user ba price quantity side s
        = .error (.abortCode strategy_vault.E_INSUFFICIENT_AVAILABLE_BALANCE)) ∧
    (∀ s', order_book.place_order user ba price quantity side s = .ok s' →
      s'.books ba = some (placedBook book user price quantity side s.now) ∧
      (placedBook book user price quantity side s.now).next_order_id
        = book.next_order_id + 1 ∧
      (placedBook book user price quantity side s.now).orders book.next_order_id = some
        { order_id := book.next_order_id
          owner := user
          price := price
          quantity := quantity
          filled_quantity := 0
          side := side
          status := order_book.ORDER_STATUS_OPEN
          timestamp := s.now } ∧
      ((placedBook book user price quantity side s.now).user_orders user).getD []
        = (book.user_orders user).getD [] ++ [book.next_order_id] ∧
      s'.events = s.events ++ [Event.orderPlaced
        { order_id := book.next_order_id
          owner := user
          price := price
          quantity := quantity
          side := side
          timestamp := s.now }] ∧
      ∃ v v', s.vaults book.vault_address = some v ∧
        s'.vaults book.vault_address = some v' ∧
        (if side = order_book.ORDER_SIDE_BID then price * quantity else quantity)
          ≤ v.availOf user ∧
        v'.availOf user = v.availOf user
          - (if side = order_book.ORDER_SIDE_BID then price * quantity else quantity) ∧
        v'.lockedOf user = v.lockedOf user
          + (if side = order_book.ORDER_SIDE_BID then price * quantity else quantity)) := by
  refine ⟨?_, ?_, ?_, ?_⟩
  · intro h0
    simp [order_book.place_order, order_book.placeOrderOwned, hb, h0]
  · intro hp h0
    simp [order_book.place_order, order_book.placeOrderOwned, hb, hp, h0]
  · intro v hvv hp hq hov hlt
    unfold order_book.place_order order_book.placeOrderOwned
    rw [hb]
    dsimp only
    rw [if_neg hp, if_neg hq]
    rw [if_neg (by intro hc; rw [if_pos hc.1] at hov; omega)]
    have hfail : strategy_vault.lock_balance book.vault_address user
        (if side = order_book.ORDER_SIDE_BID then price * quantity else quantity) s
        = .error (.abortCode strategy_vault.E_INSUFFICIENT_AVAILABLE_BALANCE) := by
      unfold strategy_vault.lock_balance
      rw [hvv]
      dsimp only
      rw [if_pos (by simpa [Vault.availOf] using hlt)]
    rw [hfail]
  · intro s' h
    unfold order_book.place_order order_book.placeOrderOwned at h
    rw [hb] at h
    try dsimp only at h
    repeat' split at h
    any_goals cases h
    rename strategy_vault.lock_balance _ _ _ _ = Except.ok _ => hlk
    have hfr := lock_balance_ok_frame _ _ _ _ _ hlk
    obtain ⟨v, v', hvv, hvv', hge, hav, hlkv⟩ := lock_balance_ok_views _ _ _ _ _ hlk
    refine ⟨?_, rfl, ?_, ?_, ?_, v, v', hvv, hvv', hge, hav, hlkv⟩
    · exact upd_self _ _ _
    · simp [placedBook, upd]
    · simp [placedBook, upd]
    · rw [hfr.2.2.2.1]

/-- Witness for C7: zero price and zero quantity are rejected, a Bid whose
price * quantity exceeds the available balance aborts with the vault's
insufficient-available error, and the successful placement of a Bid of
price 10 and quantity 5 creates order 1, bumps `next_order_id` to 2, emits
the event and locks 50. -/
theorem c7_place_order_locks_and_creates_witness :
    order_book.place_order 1 2 0 5 0 c7State
      = .error (.abortCode order_book.E_INVALID_PRICE) ∧
    order_book.place_order 1 2 10 0 0 c7State
      = .error (.abortCode order_book.E_INVALID_QUANTITY) ∧
    order_book.place_order 1 2 100 5 0 c7State
      = .error (.abortCode strategy_vault.E_INSUFFICIENT_AVAILABLE_BALANCE) ∧
    c7Post.books 2 = some (placedBook c7Book 1 10 5 0 0) ∧
    (placedBook c7Book 1 10 5 0 0).next_order_id = 2 ∧
    (placedBook c7Book 1 10 5 0 0).orders 1 = some
      { order_id := 1, owner := 1, price := 10, quantity := 5, filled_quantity := 0,
        side := 0, status := order_book.ORDER_STATUS_OPEN, timestamp := 0 } ∧
    c7Post.events = [Event.orderPlaced
      { order_id := 1, owner := 1, price := 10, quantity := 5, side := 0, timestamp := 0 }] ∧
    (∃ v', c7Post.vaults 0 = some v' ∧ v'.availOf 1 = 50 ∧ v'.lockedOf 1 = 50) := by
  have hc := c7_place_order_locks_and_creates 1 2 10 5 0 c7State c7Book rfl
  refine ⟨?_, ?_, ?_, ?_⟩
  · exact (c7_place_order_locks_and_creates 1 2 0 5 0 c7State c7Book rfl).1 rfl
  · exact (c7_place_order_locks_and_creates 1 2 10 0 0 c7State c7Book rfl).2.1
      (by decide) rfl
  · exact (c7_place_order_locks_and_creates 1 2 100 5 0 c7State c7Book rfl).2.2.1
      c7Vault rfl (by decide) (by decide) (by decide) (by decide)
  · obtain ⟨h1, h2, h3, h4, h5, v, v', hvv, hvv', hge, hav, hlkv⟩ := hc.2.2.2 c7Post rfl
    have hveq : v = c7Vault := Option.some.inj (hvv.symm.trans rfl)
    subst hveq
    refine ⟨h1, h2, h3, h5.trans rfl, v', hvv', ?_, ?_⟩
    · exact hav.trans (by decide)
    · exact hlkv.trans (by decide)

/-- Balance-view characterization of a successful `settle_order` between two
distinct users: `amount` leaves the `from_` locked view and lands on the
`to_` available view, the other two views untouched. -/
theorem settle_order_ok_views (va fr dst : Addr) (a : Nat) (s s' : GState)
    (hne : fr ≠ dst)
    (h : strategy_vault.settle_order va fr dst a s = .ok s') :
    ∃ v v', s.vaults va = some v ∧ s'.vaults va = some v' ∧ a ≤ v.lockedOf fr ∧
      v'.lockedOf fr = v.lockedOf fr - a ∧ v'.availOf dst = v.availOf dst + a ∧
      v'.availOf fr = v.availOf fr ∧ v'.lockedOf dst = v.lockedOf dst := by
  unfold strategy_vault.settle_order at h
  try dsimp only at h
  repeat' split at h
  any_goals cases h
  rename_i xov v hv xon fl hfl hins hov
  have hflv : v.user_locked_balance fr = some fl := by
    rw [← hfl]
    exact (upd_other _ _ _ _ hne).symm
  refine ⟨v, _, hv, upd_self _ _ _, ?_, ?_, ?_, ?_, ?_⟩
  · simp [Vault.lockedOf, hflv]
    omega
  · simp [Vault.lockedOf, upd, hne, hflv]
  · simp [Vault.availOf, upd, hne]
  · simp [Vault.availOf, upd, hne]
  · simp [Vault.lockedOf, upd, Ne.symm hne]

/-- Balance-view characterization of the two settlement legs of
`fill_order` between a maker and a distinct taker. -/
theorem settleBothLegs_ok_views (va mk tk : Addr) (sd fv fq : Nat) (s s' : GState)
    (hmt : mk ≠ tk) (h : order_book.settleBothLegs va mk tk sd fv fq s = .ok s') :
    ∃ v v', s.vaults va = some v ∧ s'.vaults va = some v' ∧
      (sd = order_book.ORDER_SIDE_BID →
        fv ≤ v.lockedOf mk ∧ fq ≤ v.lockedOf tk ∧
        v'.lockedOf mk = v.lockedOf mk - fv ∧ v'.availOf tk = v.availOf tk + fv ∧
        v'.lockedOf tk = v.lockedOf tk - fq ∧ v'.availOf mk = v.availOf mk + fq) ∧
      (sd ≠ order_book.ORDER_SIDE_BID →
        fq ≤ v.lockedOf mk ∧ fv ≤ v.lockedOf tk ∧
        v'.lockedOf mk = v.lockedOf mk - fq ∧ v'.availOf tk = v.availOf tk + fq ∧
        v'.lockedOf tk = v.lockedOf tk - fv ∧ v'.availOf mk = v.availOf mk + fv) := by
  unfold order_book.settleBothLegs at h
  split at h
  · rename_i hsd
    split at h
    · cases h
    · rename_i sa hleg1
      obtain ⟨v, v1, hv, hv1, hle1, l1, a1, af1, ld1⟩ :=
        settle_order_ok_views _ _ _ _ _ _ hmt hleg1
      obtain ⟨v1x, v2, hv1x, hv2, hle2, l2, a2, af2, ld2⟩ :=
        settle_order_ok_views _ _ _ _ _ _ (Ne.symm hmt) h
      have hvv : v1x = v1 := Option.some.inj (hv1x.symm.trans hv1)
      subst hvv
      refine ⟨v, v2, hv, hv2, ?_, ?_⟩
      · intro _
        refine ⟨hle1, ?_, ld2.trans l1, af2.trans a1, ?_, ?_⟩
        · rw [ld1] at hle2
          exact hle2
        · rw [l2, ld1]
        · rw [a2, af1]
      · intro hns
        exact absurd hsd hns
  · rename_i hsd
    split at h
    · cases h
    · rename_i sa hleg1
      obtain ⟨v, v1, hv, hv1, hle1, l1, a1, af1, ld1⟩ :=
        settle_order_ok_views _ _ _ _ _ _ hmt hleg1
      obtain ⟨v1x, v2, hv1x, hv2, hle2, l2, a2, af2, ld2⟩ :=
        settle_order_ok_views _ _ _ _ _ _ (Ne.symm hmt) h
      have hvv : v1x = v1 := Option.some.inj (hv1x.symm.trans hv1)
      subst hvv
      refine ⟨v, v2, hv, hv2, ?_, ?_⟩
      · intro hs
        exact absurd hs hsd
      · intro _
        refine ⟨hle1, ?_, ld2.trans l1, af2.trans a1, ?_, ?_⟩
        · rw [ld1] at hle2
          exact hle2
        · rw [l2, ld1]
        · rw [a2, af1]

/-- C8: a successful `fill_order` of `fq` against a maker order settles
`price * fq` from the maker's locked balance to the taker's available balance
and `fq` from the taker's locked balance to the maker's available balance
when the maker order is a Bid (the two amounts swap roles otherwise),
increments `filled_quantity` by `fq`, and sets the status to `Filled` exactly
when `filled_quantity` reaches `quantity` and to `PartiallyFilled`
otherwise. -/
theorem c8_fill_order_settles_and_updates_status (f ba : Addr) (oid : Nat) (tk : Addr)
    (fq : Nat) (s : GState) (book : OrderBook) (order : Order)
    (hb : s.books ba = some book) (ho : book.orders oid = some order)
    (hmt : order.owner ≠ tk) :
    ∀ s', order_book.fill_order f ba oid tk fq s = .ok s' →
      ∃ book', s'.books ba = some book' ∧
        book'.orders oid = some (filledOrder order fq) ∧
        (filledOrder order fq).filled_quantity = order.filled_quantity + fq ∧
        order.filled_quantity + fq ≤ order.quantity ∧
        ((filledOrder order fq).status = order_book.ORDER_STATUS_FILLED ↔
          order.filled_quantity + fq = order.quantity) ∧
        ((filledOrder order fq).status = order_book.ORDER_STATUS_FILLED ∨
          (filledOrder order fq).status = order_book.ORDER_STATUS_PARTIALLY_FILLED) ∧
        ∃ v v', s.vaults book.vault_address = some v ∧
          s'.vaults book.vault_address = some v' ∧
          (order.side = order_book.ORDER_SIDE_BID →
            order.price * fq ≤ v.lockedOf order.owner ∧ fq ≤ v.lockedOf tk ∧
            v'.lockedOf order.owner = v.lockedOf order.owner - order.price * fq ∧
            v'.availOf tk = v.availOf tk + order.price * fq ∧
            v'.lockedOf tk = v.lockedOf tk - fq ∧
            v'.availOf order.owner = v.availOf order.owner + fq) ∧
          (order.side ≠ order_book.ORDER_SIDE_BID →
            fq ≤ v.lockedOf order.owner ∧ order.price * fq ≤ v.lockedOf tk ∧
            v'.lockedOf order.owner = v.lockedOf order.owner - fq ∧
            v'.availOf tk = v.availOf tk + fq ∧
            v'.lockedOf tk = v.lockedOf tk - order.price * fq ∧
            v'.availOf order.owner = v.availOf order.owner + order.price * fq) := by
  intro s' h
  unfold order_book.fill_order at h
  rw [hb] at h
  try dsimp only at h
  rw [ho] at h
  try dsimp only at h
  repeat' split at h
  any_goals cases h
  all_goals
    rename order_book.settleBothLegs _ _ _ _ _ _ _ = Except.ok _ => hlegs
  all_goals
    rename_i hle hrem
  all_goals
    obtain ⟨v, v', hv, hv', hbid, hask⟩ :=
      settleBothLegs_ok_views _ _ _ _ _ _ _ _ hmt hlegs
  all_goals
    refine ⟨_, upd_self _ _ _, ?_, rfl, by omega, ?_, ?_, v, v', hv, hv', hbid, hask⟩
  all_goals
    simp [filledOrder, upd, hrem, order_book.ORDER_STATUS_FILLED,
      order_book.ORDER_STATUS_PARTIALLY_FILLED]
  all_goals omega

/-- Witness for C8: filling the Bid of quantity 100 in two fills of 50 gives
an intermediate `PartiallyFilled` order with `filled_quantity = 50` (with 500
settled maker → taker and 50 taker → maker), and the second fill reaches
`Filled` with `filled_quantity = 100`. -/
theorem c8_fill_order_settles_and_updates_status_witness :
    (∃ book1, c8Fill1.books 3 = some book1 ∧
      book1.orders 1 = some (filledOrder c8Order 50)) ∧
    (filledOrder c8Order 50).status = order_book.ORDER_STATUS_PARTIALLY_FILLED ∧
    (filledOrder c8Order 50).filled_quantity = 50 ∧
    (∃ v', c8Fill1.vaults 0 = some v' ∧ v'.lockedOf 1 = 500 ∧ v'.availOf 2 = 500 ∧
      v'.lockedOf 2 = 50 ∧ v'.availOf 1 = 50) ∧
    (∃ book2, c8Fill2.books 3 = some book2 ∧
      book2.orders 1 = some (filledOrder (filledOrder c8Order 50) 50)) ∧
    (filledOrder (filledOrder c8Order 50) 50).status = order_book.ORDER_STATUS_FILLED ∧
    (filledOrder (filledOrder c8Order 50) 50).filled_quantity = 100 := by
  obtain ⟨book1, hb1, ho1, hfq1, hle1, hiff1, hor1, v, v', hv, hv', hbid, hask⟩ :=
    c8_fill_order_settles_and_updates_status 9 3 1 2 50 c8State c8Book c8Order
      rfl rfl (by decide) c8Fill1 rfl
  obtain ⟨hm1, ht1, hm2, ht2, hm3, hm4⟩ := hbid rfl
  have hveq : v = c8Vault := Option.some.inj (hv.symm.trans rfl)
  subst hveq
  obtain ⟨book2, hb2, ho2, hfq2, hle2, hiff2, hor2, w, w', hw, hw', hbid2, hask2⟩ :=
    c8_fill_order_settles_and_updates_status 9 3 1 2 50 c8Fill1 c8Book1 c8Order1
      rfl rfl (by decide) c8Fill2 rfl
  refine ⟨⟨book1, hb1, ho1⟩, by decide, by decide, ⟨v', hv', ?_, ?_, ?_, ?_⟩,
    ⟨book2, hb2, ho2⟩, by decide, by decide⟩
  · exact hm2.trans (by decide)
  · exact ht2.trans (by decide)
  · exact hm3.trans (by decide)
  · exact hm4.trans (by decide)

/-- C10: the facilitator signer of `place_order_for_user`, `fill_order` and
`credit_deposit` is never inspected: two calls differing only in the
facilitator produce identical results (state and success/failure alike) on
every starting state, so these operations carry no authorization check
against the affected user — any account can lock a user's funds, fill any
open order, or credit shares. -/
theorem c10_facilitator_never_inspected :
    ∀ (f1 f2 ba user_addr : Addr) (price quantity side oid : Nat) (tk : Addr)
      (fq : Nat) (va u : Addr) (amount : Nat) (s : GState),
      order_book.place_order_for_user f1 ba user_addr price quantity side s
        = order_book.place_order_for_user f2 ba user_addr price quantity side s ∧
      order_book.fill_order f1 ba oid tk fq s = order_book.fill_order f2 ba oid tk fq s ∧
      strategy_vault.credit_deposit f1 va u amount s
        = strategy_vault.credit_deposit f2 va u amount s := by
  intro f1 f2 ba user_addr price quantity side oid tk fq va u amount s
  exact ⟨rfl, rfl, rfl⟩

/-- A successful `deposit` replaces the vault by `depositResultVault` and
requires a positive amount. -/
theorem deposit_ok_result (u va : Addr) (a : Nat) (s s' : GState) (v : Vault)
    (hv : s.vaults va = some v)
    (h : strategy_vault.deposit u va a s = .ok s') :
    s'.vaults va = some (strategy_vault.depositResultVault v u a) ∧ 0 < a := by
  unfold strategy_vault.deposit at h
  rw [hv] at h
  try dsimp only at h
  repeat' split at h
  any_goals cases h
  rename coinTransfer _ _ _ _ = Except.ok _ => hct
  rename strategy_vault.depositAccounting _ _ _ = Except.ok _ => hacc
  rename ¬ (_ = 0) => hpos
  have hf := coinTransfer_ok_frame _ _ _ _ _ hct
  unfold strategy_vault.depositAccounting at hacc
  try dsimp only at hacc
  repeat' split at hacc
  any_goals cases hacc
  constructor
  · rw [hf.2.1]
    exact upd_self _ _ _
  · omega

/-- A successful `credit_deposit` replaces the vault by `depositResultVault`
and requires a positive amount. -/
theorem credit_deposit_ok_result (f : Addr) (u va : Addr) (a : Nat) (s s' : GState)
    (v : Vault) (hv : s.vaults va = some v)
    (h : strategy_vault.credit_deposit f va u a s = .ok s') :
    s'.vaults va = some (strategy_vault.depositResultVault v u a) ∧ 0 < a := by
  unfold strategy_vault.credit_deposit at h
  rw [hv] at h
  try dsimp only at h
  repeat' split at h
  any_goals cases h
  rename strategy_vault.depositAccounting _ _ _ = Except.ok _ => hacc
  rename ¬ (_ = 0) => hpos
  unfold strategy_vault.depositAccounting at hacc
  try dsimp only at hacc
  repeat' split at hacc
  any_goals cases hacc
  exact ⟨upd_self _ _ _, by omega⟩

/-- A successful `lock_balance` replaces the vault by `lockResultVault`. -/
theorem lock_balance_ok_result (va u : Addr) (a : Nat) (s s' : GState) (v : Vault)
    (hv : s.vaults va = some v)
    (h : strategy_vault.lock_balance va u a s = .ok s') :
    s'.vaults va = some (strategy_vault.lockResultVault v u a) ∧ a ≤ v.availOf u := by
  unfold strategy_vault.lock_balance at h
  rw [hv] at h
  try dsimp only at h
  repeat' split at h
  any_goals cases h
  constructor
  · exact upd_self _ _ _
  · rename ¬ (_ < _) => hge
    simp only [Vault.availOf]
    omega

/-- A successful `unlock_balance` replaces the vault by `unlockResultVault`. -/
theorem unlock_balance_ok_result (va u : Addr) (a : Nat) (s s' : GState) (v : Vault)
    (hv : s.vaults va = some v)
    (h : strategy_vault.unlock_balance va u a s = .ok s') :
    s'.vaults va = some (strategy_vault.unlockResultVault v u a) ∧ a ≤ v.lockedOf u := by
  unfold strategy_vault.unlock_balance at h
  rw [hv] at h
  try dsimp only at h
  repeat' split at h
  any_goals cases h
  rename_i x uav hav y ulk hlk hge hov
  constructor
  · rw [show upd v.user_available_balance u (uav + a)
        = upd v.user_available_balance u ((v.user_available_balance u).getD 0 + a)
        from by rw [hav]; rfl,
      show upd v.user_locked_balance u (ulk - a)
        = upd v.user_locked_balance u ((v.user_locked_balance u).getD 0 - a)
        from by rw [hlk]; rfl]
    exact upd_self _ _ _
  · simp only [Vault.lockedOf, hlk, Option.getD_some]
    omega

/-- C4 counterexample: after the reachable two-operation sequence
deposit 3 / withdraw 1 share, user 1's `available + locked` is 3 while the
value backing the user's shares, `shares * total_deposits / total_shares`
= 2 * 2 / 2, is only 2 — `withdraw` burns shares and shrinks the totals but
never touches the balance views, so the claimed invariant fails. -/
theorem c4_balance_can_exceed_share_backing :
    ((strategy_vault.deposit 1 0 3 (strategy_vault.initialize_vault 0 9 c4Start)).bind
      (strategy_vault.withdraw 1 0 1)) = .ok c4Post ∧
    c4Post.vaults 0 = some c4PostVault ∧
    c4PostVault.availOf 1 + c4PostVault.lockedOf 1 = 3 ∧
    c4PostVault.sharesOf 1 * c4PostVault.total_deposits / c4PostVault.total_shares = 2 ∧
    ¬(c4PostVault.availOf 1 + c4PostVault.lockedOf 1
        ≤ c4PostVault.sharesOf 1 * c4PostVault.total_deposits / c4PostVault.total_shares) :=
  ⟨rfl, rfl, by decide, by decide, by decide⟩

/-- The no-withdraw invariant holds in every `ReachVaultOps` state. -/
theorem reachVaultOps_inv (va : Addr) (s : GState) (hr : ReachVaultOps va s) :
    VaultNoWithdrawInv va s := by
  induction hr with
  | init rt s0 h =>
    refine ⟨freshVault rt, ?_, rfl, ?_, ?_⟩
    · unfold strategy_vault.initialize_vault
      rw [h]
      exact upd_self _ _ _
    · intro u
      simp [freshVault, Vault.sharesOf]
    · intro u
      simp [freshVault, Vault.sharesOf, Vault.availOf, Vault.lockedOf]
  | dep u0 s s' a hr h ih =>
    obtain ⟨v, hv, h1, h2, h3⟩ := ih
    obtain ⟨hv', hpos⟩ := deposit_ok_result u0 va a s s' v hv h
    have hmint : strategy_vault.shares_to_mint v a = a := by
      unfold strategy_vault.shares_to_mint
      split
      · rfl
      · rename_i hS
        rw [← h1] at hS
        rw [← h1, Nat.mul_div_cancel _ (Nat.pos_of_ne_zero (by omega))]
    refine ⟨_, hv', ?_, ?_, ?_⟩
    · simp [strategy_vault.depositResultVault, hmint]
      omega
    · intro u
      have h2u := h2 u
      simp only [Vault.sharesOf] at h2u
      by_cases hu : u = u0
      · subst hu
        simp [strategy_vault.depositResultVault, Vault.sharesOf, upd, hmint]
        omega
      · simp [strategy_vault.depositResultVault, Vault.sharesOf, upd, hu, hmint]
        omega
    · intro u
      have h3u := h3 u
      simp only [Vault.sharesOf, Vault.availOf, Vault.lockedOf] at h3u
      by_cases hu : u = u0
      · subst hu
        simp [strategy_vault.depositResultVault, Vault.sharesOf, Vault.availOf,
          Vault.lockedOf, upd, hmint]
        omega
      · simp [strategy_vault.depositResultVault, Vault.sharesOf, Vault.availOf,
          Vault.lockedOf, upd, hu, hmint]
        omega
  | cred f u0 s s' a hr h ih =>
    obtain ⟨v, hv, h1, h2, h3⟩ := ih
    obtain ⟨hv', hpos⟩ := credit_deposit_ok_result f u0 va a s s' v hv h
    have hmint : strategy_vault.shares_to_mint v a = a := by
      unfold strategy_vault.shares_to_mint
      split
      · rfl
      · rename_i hS
        rw [← h1] at hS
        rw [← h1, Nat.mul_div_cancel _ (Nat.pos_of_ne_zero (by omega))]
    refine ⟨_, hv', ?_, ?_, ?_⟩
    · simp [strategy_vault.depositResultVault, hmint]
      omega
    · intro u
      have h2u := h2 u
      simp only [Vault.sharesOf] at h2u
      by_cases hu : u = u0
      · subst hu
        simp [strategy_vault.depositResultVault, Vault.sharesOf, upd, hmint]
        omega
      · simp [strategy_vault.depositResultVault, Vault.sharesOf, upd, hu, hmint]
        omega
    · intro u
      have h3u := h3 u
      simp only [Vault.sharesOf, Vault.availOf, Vault.lockedOf] at h3u
      by_cases hu : u = u0
      · subst hu
        simp [strategy_vault.depositResultVault, Vault.sharesOf, Vault.availOf,
          Vault.lockedOf, upd, hmint]
        omega
      · simp [strategy_vault.depositResultVault, Vault.sharesOf, Vault.availOf,
          Vault.lockedOf, upd, hu, hmint]
        omega
  | lock u0 s s' a hr h ih =>
    obtain ⟨v, hv, h1, h2, h3⟩ := ih
    obtain ⟨hv', hge⟩ := lock_balance_ok_result va u0 a s s' v hv h
    refine ⟨_, hv', h1, h2, ?_⟩
    intro u
    have h3u := h3 u
    simp only [Vault.sharesOf, Vault.availOf, Vault.lockedOf] at h3u hge
    by_cases hu : u = u0
    · subst hu
      simp [strategy_vault.lockResultVault, Vault.sharesOf, Vault.availOf,
        Vault.lockedOf, upd]
      omega
    · simp [strategy_vault.lockResultVault, Vault.sharesOf, Vault.availOf,
        Vault.lockedOf, upd, hu]
      omega
  | unlock u0 s s' a hr h ih =>
    obtain ⟨v, hv, h1, h2, h3⟩ := ih
    obtain ⟨hv', hge⟩ := unlock_balance_ok_result va u0 a s s' v hv h
    refine ⟨_, hv', h1, h2, ?_⟩
    intro u
    have h3u := h3 u
    simp only [Vault.sharesOf, Vault.availOf, Vault.lockedOf] at h3u hge
    by_cases hu : u = u0
    · subst hu
      simp [strategy_vault.unlockResultVault, Vault.sharesOf, Vault.availOf,
        Vault.lockedOf, upd]
      omega
    · simp [strategy_vault.unlockResultVault, Vault.sharesOf, Vault.availOf,
        Vault.lockedOf, upd, hu]
      omega

/-- C4 amended: the claimed invariant fails in general — the counterexample
shows `withdraw` shrinking the share backing while leaving the balance views
untouched, and `settle_order` likewise moves balances to users who need hold
no shares — but on every state reachable from a freshly initialized vault by
`deposit`, `credit_deposit`, `lock_balance` and `unlock_balance` operations
of arbitrary users, every user's `available_balance + locked_balance` is
bounded by (in fact equals) the value backing that user's shares,
`shares * total_deposits / total_shares`. -/
theorem c4_balance_bounded_by_backing_without_withdraw (va : Addr) (s : GState)
    (hr : ReachVaultOps va s) :
    ∃ v, s.vaults va = some v ∧ ∀ u,
      v.availOf u + v.lockedOf u
        ≤ v.sharesOf u * v.total_deposits / v.total_shares := by
  obtain ⟨v, hv, h1, h2, h3⟩ := reachVaultOps_inv va s hr
  refine ⟨v, hv, ?_⟩
  intro u
  rw [h3 u]
  by_cases hS : v.total_shares = 0
  · have h2u := h2 u
    rw [hS] at h2u
    simp [h1, hS]
    omega
  · rw [h1, Nat.mul_div_cancel _ (Nat.pos_of_ne_zero hS)]

/-- Witness for C4 (amended): with user 1 depositing 3, user 2 credited 5 and
user 1 locking 2, the reachable two-user state satisfies the backing bound
for both users. -/
theorem c4_balance_bounded_by_backing_without_withdraw_witness :
    ∃ v, c4WitnessPost.vaults 0 = some v ∧
      v.availOf 1 + v.lockedOf 1 ≤ v.sharesOf 1 * v.total_deposits / v.total_shares ∧
      v.availOf 2 + v.lockedOf 2 ≤ v.sharesOf 2 * v.total_deposits / v.total_shares := by
  obtain ⟨v, hv, hall⟩ := c4_balance_bounded_by_backing_without_withdraw 0 c4WitnessPost
    (ReachVaultOps.lock 1 _ _ 2
      (ReachVaultOps.cred 7 2 _ _ 5
        (ReachVaultOps.dep 1 _ _ 3 (ReachVaultOps.init 9 c4Start rfl) rfl) rfl) rfl)
  exact ⟨v, hv, hall 1, hall 2⟩
